import Mathlib

/-!
# PodcastApp: the filter / sort / paginate derivation of `PodcastProvider`

A shallow embedding of `src/PodcastApp/src/PodcastContext.jsx`, together with
`fetchPodcasts` (`api/fetchData.js`), `formatDuration`
(`components/Podcasts/SeasonNavigation.jsx`) and the page controls of
`components/UI/Pagination.jsx` and `components/UI/Header.jsx`.

* JavaScript strings are embedded as `String`, a sequence of code points (for
  well-formed strings a substring test on code points and one on UTF-16 code
  units agree); the operations the provider itself spells out (`trim`, `includes`, `slice`, the `switch` on the sort key,
  the page arithmetic) are embedded as executable functions.
* The host built-ins whose results depend on the Unicode tables, the locale or
  the date parser (`String.prototype.toLowerCase`,
  `String.prototype.localeCompare`, `new Date(s)`, `Number(s)`) are not code of
  the repository: they are taken as the fields of a `Builtins` record, and the
  theorems hold for every such record.  `sampleBuiltins` is one concrete
  record, used to evaluate the derivation on concrete inputs.
* `Array.prototype.sort` is stable; for a consistent comparator its result is
  the unique stable sorted arrangement, which is what `arraySort` computes.
-/

namespace PodcastApp

/-! ## Data model -/

/-- The `Podcast` typedef of `PodcastContext.jsx` (lines 3-11). -/
structure Podcast where
  id : Nat
  title : String
  updated : String
  genres : List Int
  image : String
  seasons : Nat
  deriving DecidableEq, Repr

/-- Host built-ins used by `applyFilters`.

* `toLowerCase s` is `s.toLowerCase()`;
* `localeCompare a b` is `a.localeCompare(b)` (negative, zero or positive);
* `dateTime s` is the time value of `new Date(s)` in milliseconds, `none`
  standing for the `NaN` of an invalid date;
* `toNumber s` is `Number(s)` when that is an integer, `none` when it is `NaN`
  or any other value that no integer genre identifier equals. -/
structure Builtins where
  toLowerCase : String → String
  localeCompare : String → String → Int
  dateTime : String → Option Int
  toNumber : String → Option Int

/-! ## String helpers -/

/-- The code points removed by `String.prototype.trim`: ECMAScript `WhiteSpace`
and `LineTerminator`. -/
def isWhiteSpace (c : Char) : Bool :=
  let n := c.toNat
  n == 0x09 || n == 0x0A || n == 0x0B || n == 0x0C || n == 0x0D || n == 0x20 ||
  n == 0xA0 || n == 0x1680 || (0x2000 ≤ n && n ≤ 0x200A) || n == 0x2028 ||
  n == 0x2029 || n == 0x202F || n == 0x205F || n == 0x3000 || n == 0xFEFF

/-- Leading white space removed. -/
def trimStart (l : List Char) : List Char :=
  l.dropWhile isWhiteSpace

/-- Trailing white space removed. -/
def trimEnd (l : List Char) : List Char :=
  (l.reverse.dropWhile isWhiteSpace).reverse

/-- The method `s.trim()`. -/
def trim (s : String) : String :=
  ⟨trimEnd (trimStart s.data)⟩

/-- The truthiness of a string used as an `if` condition: non-empty. -/
def truthy (s : String) : Bool :=
  decide (s ≠ "")

/-- Does `t` begin with `q`? -/
def startsWith : List Char → List Char → Bool
  | _, [] => true
  | [], _ :: _ => false
  | a :: t, b :: q => a == b && startsWith t q

/-- Does `q` occur in `t` at some position? -/
def includesAt (q : List Char) : List Char → Bool
  | [] => q.isEmpty
  | a :: t => startsWith (a :: t) q || includesAt q t

/-- The method `t.includes(q)` on strings. -/
def includes (t q : String) : Bool :=
  includesAt q.data t.data

/-- The method `genres.includes(Number(genre))` on an array of genre
identifiers. -/
def arrayIncludes (genres : List Int) (v : Option Int) : Bool :=
  match v with
  | some n => genres.contains n
  | none => false

/-! ## `Array.prototype.sort` -/

/-- The comparator result as the sort reads it: a `NaN` counts as `+0`. -/
def sortCompare (v : Option Int) : Int :=
  v.getD 0

/-- Insert `a`, which preceded every element of the list in the array, in
front of the first element it does not compare greater than. -/
def insertSorted {α : Type} (cmp : α → α → Option Int) (a : α) : List α → List α
  | [] => [a]
  | b :: l => if sortCompare (cmp a b) ≤ 0 then a :: b :: l else b :: insertSorted cmp a l

/-- The call `data.sort(cmp)`: a stable sort.  For a consistent comparator
ECMAScript fixes the result, and this is it.  For a comparator that is not
consistent (a `NaN` from an invalid date beside two distinct valid dates) the
order is left to the engine, and this function stands for the engine only
where every comparison the engine makes returns zero, so that the array is
left as it is. -/
def arraySort {α : Type} (cmp : α → α → Option Int) : List α → List α
  | [] => []
  | a :: l => insertSorted cmp a (arraySort cmp l)

/-- The subtraction `new Date(x) - new Date(y)`: `NaN` as soon as one date is
invalid. -/
def dateDiff (x y : Option Int) : Option Int :=
  match x, y with
  | some a, some b => some (a - b)
  | _, _ => none

/-! ## `applyFilters` -/

/-- Lines 119-123: the search filtering. -/
def searchStep (env : Builtins) (search : String) (data : List Podcast) : List Podcast :=
  if truthy (trim search) then
    let q := env.toLowerCase search
    data.filter (fun p => includes (env.toLowerCase p.title) q)
  else data

/-- Lines 125-128: the genre filtering. -/
def genreStep (env : Builtins) (genre : String) (data : List Podcast) : List Podcast :=
  if genre ≠ "all" then
    data.filter (fun p => arrayIncludes p.genres (env.toNumber genre))
  else data

/-- Lines 130-147: the `switch` on the sort key. -/
def sortStep (env : Builtins) (sortKey : String) (data : List Podcast) : List Podcast :=
  if sortKey = "title-asc" then
    arraySort (fun a b => some (env.localeCompare a.title b.title)) data
  else if sortKey = "title-desc" then
    arraySort (fun a b => some (env.localeCompare b.title a.title)) data
  else if sortKey = "date-asc" then
    arraySort (fun a b => dateDiff (env.dateTime a.updated) (env.dateTime b.updated)) data
  else if sortKey = "date-desc" then
    arraySort (fun a b => dateDiff (env.dateTime b.updated) (env.dateTime a.updated)) data
  else data

/-- Lines 116-150: `applyFilters`, on a copy of `initialPodcasts`. -/
def applyFilters (env : Builtins) (initialPodcasts : List Podcast)
    (search sortKey genre : String) : List Podcast :=
  sortStep env sortKey (genreStep env genre (searchStep env search initialPodcasts))

/-! ## Pagination -/

/-- The React state of `PodcastProvider` (lines 63-67). -/
structure ProviderState where
  search : String
  sortKey : String
  genre : String
  page : Int
  pageSize : Nat
  deriving DecidableEq, Repr

/-- Line 157: `Math.max(1, Math.ceil(filtered.length / pageSize))`.  The
quotient is taken in the rationals; for an array length and a positive page
size the floating-point quotient has the same ceiling.  A zero page size,
where JavaScript yields `Infinity` or `NaN`, is outside this model. -/
def totalPages (filteredLength pageSize : Nat) : Nat :=
  max 1 ⌈(filteredLength : ℚ) / (pageSize : ℚ)⌉₊

/-- Lines 160-161: the effective page. -/
def currentPage (search : String) (page : Int) (totalPages : Nat) : Int :=
  if page > (totalPages : Int) ∨ (search ≠ "" ∧ page ≠ 1) then 1 else page

/-- The method `l.slice(start, stop)`, negative indices counting from the
end. -/
def slice {α : Type} (l : List α) (start stop : Int) : List α :=
  let len : Int := l.length
  let k : Int := if start < 0 then max (len + start) 0 else min start len
  let final : Int := if stop < 0 then max (len + stop) 0 else min stop len
  (l.drop k.toNat).take (final - k).toNat

/-- Lines 163-166: the visible slice. -/
def paged (filtered : List Podcast) (currentPage : Int) (pageSize : Nat) : List Podcast :=
  slice filtered ((currentPage - 1) * (pageSize : Int)) (currentPage * (pageSize : Int))

/-- The pagination part of the context value (lines 169-184). -/
structure ContextValue where
  page : Int
  totalPages : Nat
  podcasts : List Podcast
  allPodcastsCount : Nat
  deriving DecidableEq, Repr

/-- One render of `PodcastProvider` (lines 156-184). -/
def PodcastProvider (env : Builtins) (initialPodcasts : List Podcast)
    (st : ProviderState) : ContextValue :=
  let filtered := applyFilters env initialPodcasts st.search st.sortKey st.genre
  let total := totalPages filtered.length st.pageSize
  let current := currentPage st.search st.page total
  { page := current
    totalPages := total
    podcasts := paged filtered current st.pageSize
    allPodcastsCount := filtered.length }

/-- The state setter `setPage(n)`. -/
def setPage (st : ProviderState) (n : Int) : ProviderState :=
  { st with page := n }

/-! ## A concrete record of built-ins -/

/-- Lower-casing of the basic Latin capitals; every other code point is kept.
It agrees with `toLowerCase` on ASCII strings. -/
def asciiLower (c : Char) : Char :=
  if 65 ≤ c.toNat ∧ c.toNat ≤ 90 then Char.ofNat (c.toNat + 32) else c

/-- Comparison by code points, left to right.  It agrees with `localeCompare`
on strings of basic Latin letters of one case. -/
def compareChars : List Char → List Char → Int
  | [], [] => 0
  | [], _ :: _ => -1
  | _ :: _, [] => 1
  | a :: s, b :: t =>
    if a.toNat < b.toNat then -1 else if b.toNat < a.toNat then 1 else compareChars s t

/-- Time values of a few ISO-8601 date-time strings. -/
def sampleDates : List (String × Int) :=
  [("1970-01-01T00:00:00.000Z", 0),
   ("1970-01-02T00:00:00.000Z", 86400000),
   ("1970-01-03T00:00:00.000Z", 172800000),
   ("2022-11-03T07:00:00.000Z", 1667458800000)]

/-- The value of a string of decimal digits; `none` when a character is not a
digit. -/
def digitsValue : List Char → Nat → Option Nat
  | [], acc => some acc
  | c :: l, acc =>
    if 48 ≤ c.toNat ∧ c.toNat ≤ 57 then digitsValue l (acc * 10 + (c.toNat - 48)) else none

/-- Built-ins that agree with the host on ASCII titles, on the date strings of
`sampleDates` and on genre selectors written as decimal digits. -/
def sampleBuiltins : Builtins where
  toLowerCase s := ⟨s.data.map asciiLower⟩
  localeCompare a b := compareChars a.data b.data
  dateTime s := sampleDates.lookup s
  toNumber s := (digitsValue s.data 0).map Int.ofNat

/-- A show with the given title, last-updated string and genres. -/
def mkShow (id : Nat) (title updated : String) (genres : List Int) : Podcast :=
  { id := id, title := title, updated := updated, genres := genres, image := "", seasons := 1 }

/-- The state of a fresh provider when nothing is stored: lines 58 and 63-67. -/
def defaultState : ProviderState :=
  { search := "", sortKey := "date-desc", genre := "all", page := 1, pageSize := 10 }

/-- Forty-five shows: the first twelve of genre 1, the others of genre 2. -/
def genreShows : List Podcast :=
  (List.range 45).map
    (fun i => mkShow i "Show" "1970-01-01T00:00:00.000Z" (if i < 12 then [1] else [2]))

/-- The stored page is 5 and the genre selector has just been set to 1. -/
def narrowedState : ProviderState :=
  { search := "", sortKey := "date-desc", genre := "1", page := 5, pageSize := 10 }

/-- Twenty-five shows titled "A" to "Y", stored in reverse order. -/
def alphabetShows : List Podcast :=
  (List.range 25).map
    (fun i => mkShow i (String.singleton (Char.ofNat (89 - i))) "1970-01-01T00:00:00.000Z" [1])

/-- Page size 10, sort key `title-asc`, no search, every genre. -/
def alphabetState : ProviderState :=
  { search := "", sortKey := "title-asc", genre := "all", page := 1, pageSize := 10 }

/-- The shows "Sci-Fi Stories" and "History". -/
def storyShows : List Podcast :=
  [mkShow 1 "Sci-Fi Stories" "2022-11-03T07:00:00.000Z" [2, 7],
   mkShow 2 "History" "1970-01-02T00:00:00.000Z" [5]]

/-- Three shows in source order: one updated in 2022, one whose `updated`
string is not a date, one updated in 1970. -/
def undatedShows : List Podcast :=
  [mkShow 1 "Sci-Fi Stories" "2022-11-03T07:00:00.000Z" [2, 7],
   mkShow 9 "Undated" "not a date" [],
   mkShow 2 "History" "1970-01-02T00:00:00.000Z" [5]]

/-! ## Properties named by the specification -/

/-- The specification's predicate "the title contains `S` case-insensitively":
the lower-cased search text occurs in the lower-cased title. -/
def titleContains (env : Builtins) (title S : String) : Prop :=
  ∃ s u : List Char, (env.toLowerCase title).data = s ++ (env.toLowerCase S).data ++ u

/-- A consistent comparison function in the sense of ECMAScript
(`Array.prototype.sort`), which `String.prototype.localeCompare` is required
to be on the set of all strings. -/
def ConsistentComparator {α : Type} (cmp : α → α → Int) : Prop :=
  (∀ a, cmp a a = 0) ∧
  (∀ a b, cmp a b = 0 → cmp b a = 0) ∧
  (∀ a b c, cmp a b = 0 → cmp b c = 0 → cmp a c = 0) ∧
  (∀ a b c, cmp a b < 0 → cmp b c < 0 → cmp a c < 0) ∧
  (∀ a b c, cmp a b > 0 → cmp b c > 0 → cmp a c > 0)

/-! ## Page size -/

/-- Lines 88-104: `calculatePageSize`, as the value it hands to `setPageSize`
for the viewport width `screenW`.  `Math.floor(screenW / cardWidth)` is the
integer quotient, rounded down; for a width below `2^53` the floating-point
quotient has the same floor. -/
def calculatePageSize (screenW : Int) : Int :=
  if screenW ≤ 1024 then 10
  else
    let cardWidth : Int := 260
    let maxRows : Int := 2
    let columns : Int := screenW / cardWidth
    columns * maxRows

/-- The state setter `setPageSize(n)`. -/
def setPageSize (st : ProviderState) (n : Nat) : ProviderState :=
  { st with pageSize := n }

/-- One run of `calculatePageSize` (on mount or on a `resize` event) at the
viewport width `screenW`. -/
def resize (st : ProviderState) (screenW : Int) : ProviderState :=
  setPageSize st (calculatePageSize screenW).toNat

/-! ## Persisted filter state -/

/-- What `loadFilterState` can tell apart in a value read from the parsed
record. `object` stands for every object, array or function. -/
inductive JSValue where
  | undefined
  | null
  | bool (b : Bool)
  | number (n : Int)
  | string (s : String)
  | object
  deriving DecidableEq, Repr

/-- Truthiness, as `||` tests it. -/
def JSValue.truthy : JSValue → Bool
  | .undefined => false
  | .null => false
  | .bool b => b
  | .number n => decide (n ≠ 0)
  | .string s => decide (s ≠ "")
  | .object => true

/-- The expression `v || d` for a string `d`. -/
def orDefault (v : JSValue) (d : String) : JSValue :=
  if v.truthy then v else .string d

/-- An exception raised inside the `try` block of `loadFilterState`. -/
inductive Thrown where
  | securityError
  | parseError
  | typeError
  deriving DecidableEq, Repr

/-- A value returned by `JSON.parse`, seen through the three properties that
`loadFilterState` reads; a property the value lacks reads as `undefined`.
`null` is the only JSON value on which reading a property throws. -/
inductive Parsed where
  | null
  | value (search sortKey genre : JSValue)
  deriving DecidableEq, Repr

/-- The record returned by `loadFilterState`. -/
structure LoadedFilters where
  search : JSValue
  sortKey : JSValue
  genre : JSValue
  deriving DecidableEq, Repr

/-- Line 58: the defaults. -/
def defaultFilters : LoadedFilters :=
  { search := .string "", sortKey := .string "date-desc", genre := .string "all" }

/-- Lines 49-53: the record built from the parsed value. -/
def readFilters : Parsed → Except Thrown LoadedFilters
  | .null => .error .typeError
  | .value search sortKey genre =>
    .ok { search := orDefault search ""
          sortKey := orDefault sortKey "date-desc"
          genre := orDefault genre "all" }

/-- Lines 46-54: the `try` block.  `getItem` is the outcome of
`localStorage.getItem(STORAGE_KEY)`: an exception, `null` (`none`) or the
stored text; `jsonParse` is `JSON.parse`.  The result `none` means that the
block ended without a `return`. -/
def loadFilterStateTry (jsonParse : String → Except Thrown Parsed)
    (getItem : Except Thrown (Option String)) : Except Thrown (Option LoadedFilters) :=
  match getItem with
  | .error e => .error e
  | .ok none => .ok none
  | .ok (some stored) =>
    if stored ≠ "" then
      match jsonParse stored with
      | .error e => .error e
      | .ok parsed =>
        match readFilters parsed with
        | .error e => .error e
        | .ok r => .ok (some r)
    else .ok none

/-- Lines 44-59: `loadFilterState`; the `catch` clause logs a warning and
falls through to the defaults. -/
def loadFilterState (jsonParse : String → Except Thrown Parsed)
    (getItem : Except Thrown (Option String)) : LoadedFilters :=
  match loadFilterStateTry jsonParse getItem with
  | .ok (some r) => r
  | .ok none => defaultFilters
  | .error _ => defaultFilters

/-- The initial React state of `PodcastProvider` (lines 61-67). -/
structure InitialState where
  search : JSValue
  sortKey : JSValue
  genre : JSValue
  page : Int
  pageSize : Nat
  deriving DecidableEq, Repr

/-- Lines 61-67: the five `useState` initial values. -/
def initialState (jsonParse : String → Except Thrown Parsed)
    (getItem : Except Thrown (Option String)) : InitialState :=
  let loaded := loadFilterState jsonParse getItem
  { search := loaded.search
    sortKey := loaded.sortKey
    genre := loaded.genre
    page := 1
    pageSize := 10 }

/-- The stored text of the record with search "x", sort key "title-desc" and
genre "3". -/
def storedSample : String :=
  "\x7b\"search\":\"x\",\"sortKey\":\"title-desc\",\"genre\":\"3\"\x7d"

/-- The stored text of a record whose sort key and genre are empty strings. -/
def storedEmptyKeys : String :=
  "\x7b\"search\":\"x\",\"sortKey\":\"\",\"genre\":\"\"\x7d"

/-- A parser that agrees with `JSON.parse` on `storedSample`, on
`storedEmptyKeys`, on the text `null` and on the text `oops`, which is not
JSON. -/
def sampleParse (text : String) : Except Thrown Parsed :=
  if text = storedSample then
    .ok (.value (.string "x") (.string "title-desc") (.string "3"))
  else if text = storedEmptyKeys then
    .ok (.value (.string "x") (.string "") (.string ""))
  else if text = "null" then .ok .null
  else .error .parseError

/-! ## Show records with a missing `genres` property -/

/-- A show record as the API delivers it: the `genres` property may be
missing (`none`). -/
structure RawPodcast where
  id : Nat
  title : String
  updated : String
  genres : Option (List Int)
  image : String
  seasons : Nat
  deriving DecidableEq, Repr

/-- A record that has every property of the `Podcast` typedef. -/
def RawPodcast.ofPodcast (p : Podcast) : RawPodcast :=
  { id := p.id, title := p.title, updated := p.updated, genres := some p.genres,
    image := p.image, seasons := p.seasons }

/-- Lines 119-123 on raw records. -/
def searchStepRaw (env : Builtins) (search : String) (data : List RawPodcast) :
    List RawPodcast :=
  if truthy (trim search) then
    let q := env.toLowerCase search
    data.filter (fun p => includes (env.toLowerCase p.title) q)
  else data

/-- The call `data.filter((p) => p.genres.includes(v))` on raw records:
reading `includes` of a missing `genres` throws a `TypeError`, which ends the
filter. -/
def filterGenresRaw (v : Option Int) : List RawPodcast → Except Thrown (List RawPodcast)
  | [] => .ok []
  | p :: l =>
    match p.genres with
    | none => .error .typeError
    | some g =>
      match filterGenresRaw v l with
      | .error e => .error e
      | .ok rest => .ok (if arrayIncludes g v then p :: rest else rest)

/-- Lines 125-128 on raw records. -/
def genreStepRaw (env : Builtins) (genre : String) (data : List RawPodcast) :
    Except Thrown (List RawPodcast) :=
  if genre ≠ "all" then filterGenresRaw (env.toNumber genre) data else .ok data

/-- Lines 130-147 on raw records. -/
def sortStepRaw (env : Builtins) (sortKey : String) (data : List RawPodcast) :
    List RawPodcast :=
  if sortKey = "title-asc" then
    arraySort (fun a b => some (env.localeCompare a.title b.title)) data
  else if sortKey = "title-desc" then
    arraySort (fun a b => some (env.localeCompare b.title a.title)) data
  else if sortKey = "date-asc" then
    arraySort (fun a b => dateDiff (env.dateTime a.updated) (env.dateTime b.updated)) data
  else if sortKey = "date-desc" then
    arraySort (fun a b => dateDiff (env.dateTime b.updated) (env.dateTime a.updated)) data
  else data

/-- Lines 116-150: `applyFilters` on raw records; an exception of the genre
filter leaves the function. -/
def applyFiltersRaw (env : Builtins) (initialPodcasts : List RawPodcast)
    (search sortKey genre : String) : Except Thrown (List RawPodcast) :=
  match genreStepRaw env genre (searchStepRaw env search initialPodcasts) with
  | .error e => .error e
  | .ok data => .ok (sortStepRaw env sortKey data)

/-- A record titled "Untagged" that has no `genres` property. -/
def noGenresShow : RawPodcast :=
  { id := 3, title := "Untagged", updated := "1970-01-03T00:00:00.000Z", genres := none,
    image := "", seasons := 1 }

/-! ## `fetchPodcasts` -/

/-- The outcome of `res.json()`. -/
inductive BodyResult (α : Type) where
  | unparsable (message : String)
  | parsed (data : α)
  deriving DecidableEq, Repr

/-- The outcome of the request: `fetch` rejects with an error, or resolves
with a response of some status code. -/
inductive FetchResult (α : Type) where
  | networkFailure (message : String)
  | response (status : Nat) (body : BodyResult α)
  deriving DecidableEq, Repr

/-- The calls that `fetchPodcasts` makes. -/
inductive Effect (α : Type) where
  | setPodcast (data : α)
  | setError (message : String)
  | setLoading (loading : Bool)
  | consoleError (message : String)
  deriving DecidableEq, Repr

/-- The property `res.ok`: the status is in the range 200-299. -/
def responseOk (status : Nat) : Bool :=
  decide (200 ≤ status ∧ status ≤ 299)

/-- Lines 14-17 of `fetchData.js`: the `try` block; an error is thrown with
its message, before any call has been made. -/
def fetchPodcastsTry {α : Type} : FetchResult α → Except String (List (Effect α))
  | .networkFailure message => .error message
  | .response status body =>
    if !responseOk status then .error (toString status)
    else
      match body with
      | .unparsable message => .error message
      | .parsed data => .ok [.setPodcast data]

/-- Lines 12-24 of `fetchData.js`: `fetchPodcasts`, as the sequence of calls
it makes: the `try` block, the `catch` clause and the `finally` clause. -/
def fetchPodcasts {α : Type} (r : FetchResult α) : List (Effect α) :=
  (match fetchPodcastsTry r with
    | .ok calls => calls
    | .error message => [.consoleError message, .setError message]) ++ [.setLoading false]

/-! ## `formatDuration` -/

/-- The method `s.padStart(targetLength, padString)`. -/
def padStart (s : String) (targetLength : Nat) (padString : String) : String :=
  if targetLength ≤ s.length ∨ padString = "" then s
  else
    let fill := targetLength - s.length
    ⟨((List.replicate fill padString.data).flatten.take fill) ++ s.data⟩

/-- The fraction `n / d` rounded to the nearest integer, ties to even. -/
def roundHalfEven (n d : Nat) : Nat :=
  let q := n / d
  let r := n % d
  if 2 * r < d then q else if d < 2 * r then q + 1 else if q % 2 = 0 then q else q + 1

/-- The least `t`, searched upwards from the given one, with
`2^52 * b ≤ a * 2^t`. -/
def shiftUp (a b : Nat) : Nat → Nat → Nat
  | 0, t => t
  | fuel + 1, t => if 2 ^ 52 * b ≤ a * 2 ^ t then t else shiftUp a b fuel (t + 1)

/-- The least `s`, searched upwards from the given one, with
`a < 2^53 * b * 2^s`. -/
def shiftDown (a b : Nat) : Nat → Nat → Nat
  | 0, s => s
  | fuel + 1, s => if a < 2 ^ 53 * b * 2 ^ s then s else shiftDown a b fuel (s + 1)

/-- The expression `Math.floor(a / b)` for integer-valued numbers `a ≥ 0` and
`b > 0`, as the engine computes it: the quotient is rounded to the nearest
double (a significand of 53 bits, ties to even) and then rounded down.  The
quotient is scaled by a power of two into `[2^52, 2^53)`, rounded to an
integer and scaled back.  The divisors of `formatDuration` are 1000, 3600 and
60, so that neither overflow nor a subnormal quotient arises. -/
def mathFloorDiv (a b : Nat) : Nat :=
  if a = 0 then 0
  else if 2 ^ 53 * b ≤ a then
    let s := shiftDown a b a 1
    roundHalfEven a (b * 2 ^ s) * 2 ^ s
  else
    let t := shiftUp a b (53 + b) 0
    roundHalfEven (a * 2 ^ t) b / 2 ^ t

/-- The call `n.toString()` for a non-negative integer-valued number: the
decimal numeral when `n < 2^53`; for a larger number the host prints the
shortest digits that read back as the same double, which is taken as the
parameter `hostToString`. -/
def numberToString (hostToString : Nat → String) (n : Nat) : String :=
  if n < 2 ^ 53 then toString n else hostToString n

/-- Lines 56-67 of `SeasonNavigation.jsx`: `formatDuration` on an
integer-valued duration; `none` is a missing duration.  The remainder `%` of
two integer-valued doubles is exact. -/
def formatDuration (hostToString : Nat → String) (durationMs : Option Nat) : String :=
  match durationMs with
  | none => "0:00"
  | some ms =>
    if ms = 0 then "0:00"
    else
      let totalSeconds := mathFloorDiv ms 1000
      let hours := mathFloorDiv totalSeconds 3600
      let minutes := mathFloorDiv (totalSeconds % 3600) 60
      let seconds := totalSeconds % 60
      if hours > 0 then
        numberToString hostToString hours ++ ":" ++
          padStart (numberToString hostToString minutes) 2 "0" ++ ":" ++
          padStart (numberToString hostToString seconds) 2 "0"
      else
        numberToString hostToString minutes ++ ":" ++
          padStart (numberToString hostToString seconds) 2 "0"

/-- The decimal numeral, standing for the host's conversion in evaluations
where every number printed is below `2^53`, so that `numberToString` does not
consult it. -/
def decimalToString (n : Nat) : String :=
  toString n

/-- The specification's "zero-padded to two digits": the tens digit followed
by the units digit. -/
def twoDigits (n : Nat) : String :=
  ⟨[Nat.digitChar (n / 10), Nat.digitChar (n % 10)]⟩

/-! ## User events -/

/-- The application state the events act on: the `initialPodcasts` prop and
the React state of the provider. -/
structure App where
  shows : List Podcast
  state : ProviderState
  deriving DecidableEq, Repr

/-- The events that change the provider's inputs. -/
inductive Event where
  | prevClick
  | nextClick
  | logoClick
  | setSearch (search : String)
  | setGenre (genre : String)
  | setSortKey (sortKey : String)
  | setPageSize (pageSize : Nat)
  | setShows (shows : List Podcast)
  deriving DecidableEq, Repr

/-- `Pagination.jsx`, the Prev button: not rendered when there is one page,
disabled on page 1, otherwise `setPage(page - 1)`. -/
def prevClick (v : ContextValue) (st : ProviderState) : ProviderState :=
  if v.totalPages ≤ 1 then st
  else if v.page = 1 then st
  else setPage st (v.page - 1)

/-- `Pagination.jsx`, the Next button: not rendered when there is one page,
disabled on the last page, otherwise `setPage(page + 1)`. -/
def nextClick (v : ContextValue) (st : ProviderState) : ProviderState :=
  if v.totalPages ≤ 1 then st
  else if v.page = (v.totalPages : Int) then st
  else setPage st (v.page + 1)

/-- `Header.jsx`, lines 26-32: `handleLogoClick`. -/
def handleLogoClick (st : ProviderState) : ProviderState :=
  { search := "", sortKey := "date-desc", genre := "all", page := 1, pageSize := st.pageSize }

/-- The effect of one event. -/
def step (env : Builtins) (a : App) : Event → App
  | .prevClick => { a with state := prevClick (PodcastProvider env a.shows a.state) a.state }
  | .nextClick => { a with state := nextClick (PodcastProvider env a.shows a.state) a.state }
  | .logoClick => { a with state := handleLogoClick a.state }
  | .setSearch search => { a with state := { a.state with search := search } }
  | .setGenre genre => { a with state := { a.state with genre := genre } }
  | .setSortKey sortKey => { a with state := { a.state with sortKey := sortKey } }
  | .setPageSize pageSize => { a with state := PodcastApp.setPageSize a.state pageSize }
  | .setShows shows => { a with shows := shows }

/-- The effect of a sequence of events. -/
def run (env : Builtins) (a : App) (events : List Event) : App :=
  events.foldl (step env) a

/-- Does the event keep the page size positive? -/
def Event.keepsPageSizePositive : Event → Bool
  | .setPageSize pageSize => decide (0 < pageSize)
  | _ => true

/-- A session on the forty-five shows: two pages forward, a genre filter, one
page back, a resize, a search, the logo. -/
def sampleEvents : List Event :=
  [.nextClick, .nextClick, .setGenre "1", .prevClick, .setPageSize 6, .setSearch "show",
   .nextClick, .logoClick, .prevClick]

/-! ## Pagination arithmetic -/

theorem ceil_div_le_iff (n s k : Nat) (hs : 0 < s) :
    ⌈(n : ℚ) / (s : ℚ)⌉₊ ≤ k ↔ n ≤ k * s := by
  have hs' : (0 : ℚ) < (s : ℚ) := by exact_mod_cast hs
  rw [Nat.ceil_le, div_le_iff₀ hs']
  exact_mod_cast Iff.rfl

theorem totalPages_le_iff (n s k : Nat) (hs : 0 < s) :
    totalPages n s ≤ k ↔ 1 ≤ k ∧ n ≤ k * s := by
  unfold totalPages
  rw [max_le_iff, ceil_div_le_iff n s k hs]

theorem totalPages_eq_div (n s : Nat) (hs : 0 < s) :
    totalPages n s = max 1 ((n + s - 1) / s) := by
  apply le_antisymm
  · rw [totalPages_le_iff n s _ hs]
    refine ⟨le_max_left _ _, ?_⟩
    have h1 : n ≤ ((n + s - 1) / s) * s := by
      have h2 := Nat.div_add_mod (n + s - 1) s
      have h3 := Nat.mod_lt (n + s - 1) hs
      have h4 : s * ((n + s - 1) / s) = ((n + s - 1) / s) * s := Nat.mul_comm _ _
      omega
    exact le_trans h1 (Nat.mul_le_mul_right s (le_max_right _ _))
  · have h := (totalPages_le_iff n s (totalPages n s) hs).mp le_rfl
    rw [max_le_iff]
    refine ⟨h.1, ?_⟩
    rw [Nat.div_le_iff_le_mul_add_pred hs]
    have : totalPages n s * s = s * totalPages n s := Nat.mul_comm _ _
    omega

theorem currentPage_eq_one (search : String) (page : Int) (total : Nat)
    (h : page > (total : Int) ∨ (search ≠ "" ∧ page ≠ 1)) : currentPage search page total = 1 := by
  unfold currentPage
  rw [if_pos h]

theorem currentPage_eq_self (search : String) (page : Int) (total : Nat)
    (h : ¬ (page > (total : Int) ∨ (search ≠ "" ∧ page ≠ 1))) :
    currentPage search page total = page := by
  unfold currentPage
  rw [if_neg h]

theorem one_le_totalPages (n s : Nat) : 1 ≤ totalPages n s :=
  le_max_left _ _

theorem currentPage_in_range (search : String) (n : Int) (total : Nat) (ht : 1 ≤ total)
    (hn : 1 ≤ n ∨ search ≠ "") :
    1 ≤ currentPage search n total ∧ currentPage search n total ≤ (total : Int) := by
  have ht' : (1 : Int) ≤ (total : Int) := by exact_mod_cast ht
  by_cases h : n > (total : Int) ∨ (search ≠ "" ∧ n ≠ 1)
  · rw [currentPage_eq_one _ _ _ h]
    exact ⟨le_rfl, ht'⟩
  · rw [currentPage_eq_self _ _ _ h]
    push_neg at h
    refine ⟨?_, h.1⟩
    rcases hn with hn | hn
    · exact hn
    · rw [h.2 hn]

theorem currentPage_empty_search (n : Int) (total : Nat) (hn : n ≤ (total : Int)) :
    currentPage "" n total = n := by
  apply currentPage_eq_self
  intro h
  rcases h with h | h
  · omega
  · exact h.1 rfl

theorem genreShows_totalPages :
    (PodcastProvider sampleBuiltins genreShows narrowedState).totalPages = 2 := by
  show totalPages (applyFilters sampleBuiltins genreShows "" "date-desc" "1").length 10 = 2
  rw [totalPages_eq_div _ _ (by decide)]
  decide

/-- C1: the effective page exposed as `page` is 1 when the stored page exceeds
`totalPages` or when the search text is not the empty string and the stored
page is not 1, and is the stored page otherwise; with stored page 5 and
`totalPages` 2 it is 1. -/
theorem effective_page_spec (env : Builtins) (shows : List Podcast) (st : ProviderState)
    (_hs : 0 < st.pageSize) :
    ((st.page > ((PodcastProvider env shows st).totalPages : Int) ∨
        (st.search ≠ "" ∧ st.page ≠ 1)) → (PodcastProvider env shows st).page = 1) ∧
    (¬ (st.page > ((PodcastProvider env shows st).totalPages : Int) ∨
        (st.search ≠ "" ∧ st.page ≠ 1)) → (PodcastProvider env shows st).page = st.page) ∧
    (st.page = 5 → (PodcastProvider env shows st).totalPages = 2 →
      (PodcastProvider env shows st).page = 1) := by
  refine ⟨fun h => currentPage_eq_one _ _ _ h, fun h => currentPage_eq_self _ _ _ h, ?_⟩
  intro h5 h2
  apply currentPage_eq_one
  left
  have h2' : totalPages (applyFilters env shows st.search st.sortKey st.genre).length
      st.pageSize = 2 := h2
  rw [h2', h5]
  decide

/-- C1, evaluated: forty-five shows, page size 10, stored page 5; the genre
selector 1 leaves twelve shows, hence two pages, and the effective page is 1. -/
theorem effective_page_spec_witness :
    (0 < narrowedState.pageSize) ∧
    (PodcastProvider sampleBuiltins genreShows narrowedState).totalPages = 2 ∧
    (PodcastProvider sampleBuiltins genreShows narrowedState).page = 1 :=
  ⟨by decide, genreShows_totalPages,
    (effective_page_spec sampleBuiltins genreShows narrowedState (by decide)).2.2 rfl
      genreShows_totalPages⟩

/-- C2, as stated, fails: after `setPage(0)` on the default state the effective
page is 0, below 1. -/
theorem setPage_zero_not_clamped :
    (PodcastProvider sampleBuiltins genreShows (setPage defaultState 0)).page = 0 ∧
    ¬ (1 ≤ (PodcastProvider sampleBuiltins genreShows (setPage defaultState 0)).page) := by
  have h : (PodcastProvider sampleBuiltins genreShows (setPage defaultState 0)).page = 0 :=
    currentPage_empty_search 0
      (totalPages (applyFilters sampleBuiltins genreShows "" "date-desc" "all").length 10)
      (Int.ofNat_nonneg _)
  refine ⟨h, ?_⟩
  rw [h]
  decide

/-- C2, amended: when the page requested through `setPage` is at least 1, or
the search text is not empty, the effective page lies in `[1, totalPages]`,
with `totalPages = max(1, ceil(filteredCount / pageSize))`; a request `n ≤ 0`
with an empty search text is exposed as it is. -/
theorem setPage_effective_page_in_range (env : Builtins) (shows : List Podcast)
    (st : ProviderState) (n : Int) (_hs : 0 < st.pageSize) :
    (1 ≤ n ∨ st.search ≠ "" →
      1 ≤ (PodcastProvider env shows (setPage st n)).page ∧
      (PodcastProvider env shows (setPage st n)).page ≤
        ((PodcastProvider env shows (setPage st n)).totalPages : Int)) ∧
    (PodcastProvider env shows (setPage st n)).totalPages =
      max 1 ⌈((PodcastProvider env shows (setPage st n)).allPodcastsCount : ℚ) /
        (st.pageSize : ℚ)⌉₊ ∧
    (n ≤ 0 → st.search = "" → (PodcastProvider env shows (setPage st n)).page = n) := by
  refine ⟨fun hn => currentPage_in_range _ _ _ (one_le_totalPages _ _) hn, rfl, ?_⟩
  intro hn hsearch
  show currentPage st.search n _ = n
  rw [hsearch]
  exact currentPage_empty_search n _ (le_trans hn (Int.ofNat_nonneg _))

/-- C2, amended, evaluated: `setPage(7)` on forty-five shows with page size 10
(five pages) exposes page 1, within `[1, 5]`. -/
theorem setPage_effective_page_in_range_witness :
    1 ≤ (PodcastProvider sampleBuiltins genreShows (setPage defaultState 7)).page ∧
    (PodcastProvider sampleBuiltins genreShows (setPage defaultState 7)).page ≤
      ((PodcastProvider sampleBuiltins genreShows (setPage defaultState 7)).totalPages : Int) :=
  (setPage_effective_page_in_range sampleBuiltins genreShows defaultState 7 (by decide)).1
    (Or.inl (by decide))

/-- C8: `totalPages` is `max(1, ceil(n / s))` for the filtered count `n` and a
positive page size `s`: the least `k ≥ 1` with `n ≤ k * s`; it is 1 for an
empty filtered list and never below 1. -/
theorem totalPages_spec (env : Builtins) (shows : List Podcast) (st : ProviderState)
    (hs : 0 < st.pageSize) :
    (PodcastProvider env shows st).totalPages =
      max 1 ⌈((PodcastProvider env shows st).allPodcastsCount : ℚ) / (st.pageSize : ℚ)⌉₊ ∧
    (∀ k : Nat, (PodcastProvider env shows st).totalPages ≤ k ↔
      1 ≤ k ∧ (PodcastProvider env shows st).allPodcastsCount ≤ k * st.pageSize) ∧
    (PodcastProvider env shows st).totalPages =
      max 1 (((PodcastProvider env shows st).allPodcastsCount + st.pageSize - 1) / st.pageSize) ∧
    ((PodcastProvider env shows st).allPodcastsCount = 0 →
      (PodcastProvider env shows st).totalPages = 1) ∧
    1 ≤ (PodcastProvider env shows st).totalPages := by
  refine ⟨rfl, fun k => totalPages_le_iff _ _ k hs, totalPages_eq_div _ _ hs, ?_,
    one_le_totalPages _ _⟩
  intro h0
  have h := totalPages_eq_div (applyFilters env shows st.search st.sortKey st.genre).length
    st.pageSize hs
  have h0' : (applyFilters env shows st.search st.sortKey st.genre).length = 0 := h0
  rw [h0'] at h
  show totalPages (applyFilters env shows st.search st.sortKey st.genre).length st.pageSize = 1
  rw [h0', h]
  have : (0 + st.pageSize - 1) / st.pageSize = 0 := by
    apply Nat.div_eq_of_lt
    omega
  rw [this]
  rfl

/-- C8, evaluated: twelve filtered shows and page size 10 give two pages. -/
theorem totalPages_spec_witness :
    (PodcastProvider sampleBuiltins genreShows narrowedState).totalPages =
      max 1 (((PodcastProvider sampleBuiltins genreShows narrowedState).allPodcastsCount
        + narrowedState.pageSize - 1) / narrowedState.pageSize) :=
  (totalPages_spec sampleBuiltins genreShows narrowedState (by decide)).2.2.1

/-! ## The visible slice -/

theorem slice_nat {α : Type} (l : List α) (a b : Nat) :
    slice l (a : Int) (b : Int) = (l.take b).drop a := by
  unfold slice
  have h1 : ¬ ((a : Int) < 0) := by omega
  have h2 : ¬ ((b : Int) < 0) := by omega
  simp only [h1, h2, if_false]
  have hk : (min (a : Int) (l.length : Int)).toNat = min a l.length := by omega
  have hf : (min (b : Int) (l.length : Int) - min (a : Int) (l.length : Int)).toNat
      = min b l.length - min a l.length := by omega
  rw [hk, hf, List.drop_take]
  by_cases ha : a ≤ l.length
  · rw [Nat.min_eq_left ha, List.take_eq_take]
    simp only [List.length_drop]
    omega
  · have ha' : l.length ≤ a := by omega
    rw [Nat.min_eq_right ha', List.drop_eq_nil_of_le ha', List.drop_eq_nil_of_le le_rfl]
    simp

theorem paged_eq (filtered : List Podcast) (p : Int) (s : Nat) (hp : 1 ≤ p) :
    paged filtered p s = (filtered.take (p.toNat * s)).drop ((p.toNat - 1) * s) := by
  unfold paged
  have h1 : (p - 1) * (s : Int) = (((p.toNat - 1) * s : Nat) : Int) := by
    have : ((p.toNat - 1 : Nat) : Int) = p - 1 := by omega
    rw [Nat.cast_mul, this]
  have h2 : p * (s : Int) = ((p.toNat * s : Nat) : Int) := by
    have : ((p.toNat : Nat) : Int) = p := by omega
    rw [Nat.cast_mul, this]
  rw [h1, h2, slice_nat]

theorem paged_succ (filtered : List Podcast) (i s : Nat) :
    paged filtered ((i : Int) + 1) s = (filtered.take ((i + 1) * s)).drop (i * s) := by
  have h := paged_eq filtered ((i : Int) + 1) s (by omega)
  have h1 : ((i : Int) + 1).toNat = i + 1 := by omega
  rw [h1] at h
  exact h

theorem length_paged_le (filtered : List Podcast) (p : Int) (s : Nat) (hp : 1 ≤ p) :
    (paged filtered p s).length ≤ s := by
  rw [paged_eq filtered p s hp, List.length_drop, List.length_take]
  have h : p.toNat * s = (p.toNat - 1) * s + s := by
    have : p.toNat = (p.toNat - 1) + 1 := by omega
    nth_rewrite 1 [this]
    rw [Nat.add_mul, Nat.one_mul]
  omega

theorem length_paged_eq (filtered : List Podcast) (p : Int) (s : Nat) (hp : 1 ≤ p)
    (hlen : p.toNat * s ≤ filtered.length) : (paged filtered p s).length = s := by
  rw [paged_eq filtered p s hp, List.length_drop, List.length_take]
  have h : p.toNat * s = (p.toNat - 1) * s + s := by
    have : p.toNat = (p.toNat - 1) + 1 := by omega
    nth_rewrite 1 [this]
    rw [Nat.add_mul, Nat.one_mul]
  omega

theorem lt_totalPages_imp (n s k : Nat) (hs : 0 < s) (hk : 1 ≤ k) (h : k < totalPages n s) :
    k * s < n := by
  by_contra hcon
  have := (totalPages_le_iff n s k hs).mpr ⟨hk, by omega⟩
  omega

/-- C9: for an effective page `p` in `[1, totalPages]` and a positive page size
`s`, the visible slice `podcasts` is `filtered[(p-1)*s : p*s]`; it has at most
`s` elements, and exactly `s` when `p < totalPages`. -/
theorem visible_slice_spec (env : Builtins) (shows : List Podcast) (st : ProviderState)
    (hs : 0 < st.pageSize)
    (h1 : 1 ≤ (PodcastProvider env shows st).page)
    (_h2 : (PodcastProvider env shows st).page ≤ ((PodcastProvider env shows st).totalPages : Int)) :
    (PodcastProvider env shows st).podcasts =
      ((applyFilters env shows st.search st.sortKey st.genre).take
          ((PodcastProvider env shows st).page.toNat * st.pageSize)).drop
        (((PodcastProvider env shows st).page.toNat - 1) * st.pageSize) ∧
    (PodcastProvider env shows st).podcasts.length ≤ st.pageSize ∧
    ((PodcastProvider env shows st).page < ((PodcastProvider env shows st).totalPages : Int) →
      (PodcastProvider env shows st).podcasts.length = st.pageSize) := by
  refine ⟨paged_eq _ _ _ h1, length_paged_le _ _ _ h1, ?_⟩
  intro hlt
  apply length_paged_eq _ _ _ h1
  apply Nat.le_of_lt
  apply lt_totalPages_imp _ _ _ hs
  · omega
  · have : (((PodcastProvider env shows st).page.toNat : Nat) : Int)
        < ((PodcastProvider env shows st).totalPages : Int) := by omega
    exact_mod_cast this

theorem flatMap_pages {α : Type} (l : List α) (s : Nat) (n : Nat) :
    (List.range n).flatMap (fun i => (l.take ((i + 1) * s)).drop (i * s)) = l.take (n * s) := by
  induction n with
  | zero => simp
  | succ n ih =>
    rw [List.range_succ, List.flatMap_append, ih]
    have h1 : l.take (n * s) = (l.take ((n + 1) * s)).take (n * s) := by
      rw [List.take_take]
      congr 1
      have : n * s ≤ (n + 1) * s := Nat.mul_le_mul_right s (Nat.le_succ n)
      omega
    simp only [List.flatMap_cons, List.flatMap_nil, List.append_nil]
    rw [h1, List.take_append_drop]

/-- C10: with an empty search text and a positive page size, the visible slices
of the stored pages `1, 2, ..., totalPages`, concatenated in that order, are
the filtered and sorted list. -/
theorem pages_cover_filtered (env : Builtins) (shows : List Podcast) (st : ProviderState)
    (hs : 0 < st.pageSize) (hsearch : st.search = "") :
    (List.range (PodcastProvider env shows st).totalPages).flatMap
        (fun i => (PodcastProvider env shows (setPage st ((i : Int) + 1))).podcasts) =
      applyFilters env shows st.search st.sortKey st.genre := by
  have hstep : ∀ i ∈ List.range (PodcastProvider env shows st).totalPages,
      (PodcastProvider env shows (setPage st ((i : Int) + 1))).podcasts =
        ((applyFilters env shows st.search st.sortKey st.genre).take
          ((i + 1) * st.pageSize)).drop (i * st.pageSize) := by
    intro i hi
    rw [List.mem_range] at hi
    have hcur : (PodcastProvider env shows (setPage st ((i : Int) + 1))).page = (i : Int) + 1 := by
      show currentPage st.search ((i : Int) + 1) (PodcastProvider env shows st).totalPages = _
      rw [hsearch]
      apply currentPage_empty_search
      omega
    show paged (applyFilters env shows st.search st.sortKey st.genre)
      (PodcastProvider env shows (setPage st ((i : Int) + 1))).page st.pageSize = _
    rw [hcur, paged_succ]
  rw [List.flatMap_congr hstep, flatMap_pages]
  apply List.take_of_length_le
  exact ((totalPages_le_iff _ _ _ hs).mp le_rfl).2

theorem provider_eq_div (env : Builtins) (shows : List Podcast) (st : ProviderState)
    (hs : 0 < st.pageSize) :
    PodcastProvider env shows st =
      { page := currentPage st.search st.page
          (max 1 (((applyFilters env shows st.search st.sortKey st.genre).length
            + st.pageSize - 1) / st.pageSize))
        totalPages := max 1 (((applyFilters env shows st.search st.sortKey st.genre).length
            + st.pageSize - 1) / st.pageSize)
        podcasts := paged (applyFilters env shows st.search st.sortKey st.genre)
          (currentPage st.search st.page
            (max 1 (((applyFilters env shows st.search st.sortKey st.genre).length
              + st.pageSize - 1) / st.pageSize))) st.pageSize
        allPodcastsCount := (applyFilters env shows st.search st.sortKey st.genre).length } := by
  unfold PodcastProvider
  simp only [totalPages_eq_div _ _ hs]

set_option maxRecDepth 100000 in
theorem alphabet_page_two :
    1 ≤ (PodcastProvider sampleBuiltins alphabetShows (setPage alphabetState 2)).page ∧
    (PodcastProvider sampleBuiltins alphabetShows (setPage alphabetState 2)).page <
      ((PodcastProvider sampleBuiltins alphabetShows (setPage alphabetState 2)).totalPages : Int) := by
  rw [provider_eq_div _ _ _ (by decide)]
  decide

/-- C9, evaluated: on twenty-five shows with page size 10 the second of the
three pages has exactly ten shows. -/
theorem visible_slice_spec_witness :
    (PodcastProvider sampleBuiltins alphabetShows (setPage alphabetState 2)).podcasts.length =
      (setPage alphabetState 2).pageSize :=
  (visible_slice_spec sampleBuiltins alphabetShows (setPage alphabetState 2) (by decide)
    alphabet_page_two.1 (le_of_lt alphabet_page_two.2)).2.2 alphabet_page_two.2

set_option maxRecDepth 100000 in
theorem alphabet_pages :
    (PodcastProvider sampleBuiltins alphabetShows alphabetState).totalPages = 3 ∧
    (PodcastProvider sampleBuiltins alphabetShows (setPage alphabetState 1)).podcasts.map
      (fun p => p.title) = ["A", "B", "C", "D", "E", "F", "G", "H", "I", "J"] ∧
    (PodcastProvider sampleBuiltins alphabetShows (setPage alphabetState 2)).podcasts.map
      (fun p => p.title) = ["K", "L", "M", "N", "O", "P", "Q", "R", "S", "T"] ∧
    (PodcastProvider sampleBuiltins alphabetShows (setPage alphabetState 3)).podcasts.map
      (fun p => p.title) = ["U", "V", "W", "X", "Y"] := by
  refine ⟨?_, ?_, ?_, ?_⟩ <;>
  · rw [provider_eq_div _ _ _ (by decide)]
    decide

/-- C10, evaluated: twenty-five shows titled "A" to "Y", page size 10, sort key
`title-asc`: three pages, "A" to "J", "K" to "T" and "U" to "Y", which together
are the sorted list. -/
theorem pages_cover_filtered_witness :
    ((List.range (PodcastProvider sampleBuiltins alphabetShows alphabetState).totalPages).flatMap
        (fun i => (PodcastProvider sampleBuiltins alphabetShows
          (setPage alphabetState ((i : Int) + 1))).podcasts) =
      applyFilters sampleBuiltins alphabetShows alphabetState.search alphabetState.sortKey
        alphabetState.genre) ∧
    (PodcastProvider sampleBuiltins alphabetShows alphabetState).totalPages = 3 ∧
    (PodcastProvider sampleBuiltins alphabetShows (setPage alphabetState 1)).podcasts.map
      (fun p => p.title) = ["A", "B", "C", "D", "E", "F", "G", "H", "I", "J"] ∧
    (PodcastProvider sampleBuiltins alphabetShows (setPage alphabetState 2)).podcasts.map
      (fun p => p.title) = ["K", "L", "M", "N", "O", "P", "Q", "R", "S", "T"] ∧
    (PodcastProvider sampleBuiltins alphabetShows (setPage alphabetState 3)).podcasts.map
      (fun p => p.title) = ["U", "V", "W", "X", "Y"] :=
  ⟨pages_cover_filtered sampleBuiltins alphabetShows alphabetState (by decide) rfl,
    alphabet_pages⟩

/-! ## The filters -/

theorem startsWith_iff (t q : List Char) : startsWith t q = true ↔ ∃ u, t = q ++ u := by
  induction q generalizing t with
  | nil => simp [startsWith]
  | cons b q ih =>
    cases t with
    | nil => simp [startsWith]
    | cons a t =>
      simp only [startsWith, Bool.and_eq_true, beq_iff_eq, ih, List.cons_append, List.cons.injEq]
      constructor
      · rintro ⟨rfl, u, rfl⟩
        exact ⟨u, rfl, rfl⟩
      · rintro ⟨u, rfl, rfl⟩
        exact ⟨rfl, u, rfl⟩

theorem includesAt_iff (q t : List Char) :
    includesAt q t = true ↔ ∃ s u, t = s ++ q ++ u := by
  induction t with
  | nil =>
    simp only [includesAt, List.isEmpty_iff]
    constructor
    · rintro rfl
      exact ⟨[], [], rfl⟩
    · rintro ⟨s, u, h⟩
      have h' := congrArg List.length h
      simp only [List.length_nil, List.length_append] at h'
      exact List.eq_nil_of_length_eq_zero (by omega)
  | cons a t ih =>
    simp only [includesAt, Bool.or_eq_true, startsWith_iff, ih]
    constructor
    · rintro (⟨u, h⟩ | ⟨s, u, h⟩)
      · exact ⟨[], u, by simpa using h⟩
      · exact ⟨a :: s, u, by simp [h]⟩
    · rintro ⟨s, u, h⟩
      cases s with
      | nil => exact Or.inl ⟨u, by simpa using h⟩
      | cons c s =>
        simp only [List.cons_append, List.cons.injEq] at h
        exact Or.inr ⟨s, u, h.2⟩

theorem includes_iff (env : Builtins) (title S : String) :
    includes (env.toLowerCase title) (env.toLowerCase S) = true ↔ titleContains env title S :=
  includesAt_iff _ _

theorem trimStart_all_iff (l : List Char) :
    (∀ c ∈ trimStart l, isWhiteSpace c = true) ↔ ∀ c ∈ l, isWhiteSpace c = true := by
  unfold trimStart
  constructor
  · intro h c hc
    rw [← List.takeWhile_append_dropWhile isWhiteSpace l, List.mem_append] at hc
    rcases hc with hc | hc
    · exact List.mem_takeWhile_imp hc
    · exact h c hc
  · intro h c hc
    exact h c ((List.dropWhile_sublist isWhiteSpace).subset hc)

theorem trim_eq_empty_iff (s : String) :
    trim s = "" ↔ ∀ c ∈ s.data, isWhiteSpace c = true := by
  have h1 : trim s = "" ↔ trimEnd (trimStart s.data) = [] := by
    unfold trim
    constructor
    · intro h
      exact congrArg String.data h
    · intro h
      rw [h]
  rw [h1, ← trimStart_all_iff]
  unfold trimEnd
  rw [List.reverse_eq_nil_iff, List.dropWhile_eq_nil_iff]
  simp only [List.mem_reverse]

theorem truthy_trim_iff (s : String) :
    truthy (trim s) = true ↔ ∃ c ∈ s.data, isWhiteSpace c = false := by
  unfold truthy
  rw [decide_eq_true_iff, Ne, trim_eq_empty_iff]
  push_neg
  simp only [Bool.not_eq_true]

theorem searchStep_of_blank (env : Builtins) (search : String) (data : List Podcast)
    (h : ∀ c ∈ search.data, isWhiteSpace c = true) : searchStep env search data = data := by
  unfold searchStep
  have h' : ¬ (truthy (trim search) = true) := by
    rw [truthy_trim_iff]
    push_neg
    intro c hc
    rw [h c hc]
    decide
  rw [if_neg h']

theorem searchStep_of_visible (env : Builtins) (search : String) (data : List Podcast)
    (h : ∃ c ∈ search.data, isWhiteSpace c = false) :
    searchStep env search data =
      data.filter (fun p => includes (env.toLowerCase p.title) (env.toLowerCase search)) := by
  unfold searchStep
  rw [if_pos ((truthy_trim_iff search).mpr h)]

theorem genreStep_all (env : Builtins) (data : List Podcast) : genreStep env "all" data = data := by
  unfold genreStep
  simp

theorem genreStep_of_ne (env : Builtins) (genre : String) (data : List Podcast)
    (h : genre ≠ "all") :
    genreStep env genre data =
      data.filter (fun p => arrayIncludes p.genres (env.toNumber genre)) := by
  unfold genreStep
  rw [if_pos h]

theorem arrayIncludes_iff (genres : List Int) (v : Option Int) :
    arrayIncludes genres v = true ↔ ∃ n, v = some n ∧ n ∈ genres := by
  cases v with
  | none => simp [arrayIncludes]
  | some n => simp [arrayIncludes]

theorem searchStep_sublist (env : Builtins) (search : String) (data : List Podcast) :
    (searchStep env search data).Sublist data := by
  unfold searchStep
  split
  · exact List.filter_sublist _
  · exact List.Sublist.refl _

theorem genreStep_sublist (env : Builtins) (genre : String) (data : List Podcast) :
    (genreStep env genre data).Sublist data := by
  unfold genreStep
  split
  · exact List.filter_sublist _
  · exact List.Sublist.refl _

theorem sortStep_of_unrecognised (env : Builtins) (sortKey : String) (data : List Podcast)
    (h1 : sortKey ≠ "title-asc") (h2 : sortKey ≠ "title-desc")
    (h3 : sortKey ≠ "date-asc") (h4 : sortKey ≠ "date-desc") :
    sortStep env sortKey data = data := by
  unfold sortStep
  rw [if_neg h1, if_neg h2, if_neg h3, if_neg h4]

/-- C4: the search step keeps every show when the search text is empty or made
of white space only; otherwise it keeps a show exactly when its lower-cased
title contains the lower-cased search text as a substring, in source order. -/
theorem search_step_spec (env : Builtins) (search : String) (data : List Podcast) :
    ((∀ c ∈ search.data, isWhiteSpace c = true) → searchStep env search data = data) ∧
    ((∃ c ∈ search.data, isWhiteSpace c = false) →
      (searchStep env search data).Sublist data ∧
      ∀ p, p ∈ searchStep env search data ↔
        p ∈ data ∧ ∃ s u : List Char,
          (env.toLowerCase p.title).data = s ++ (env.toLowerCase search).data ++ u) := by
  refine ⟨searchStep_of_blank env search data, fun h => ⟨searchStep_sublist _ _ _, ?_⟩⟩
  intro p
  rw [searchStep_of_visible env search data h, List.mem_filter]
  exact and_congr_right (fun _ => includes_iff env p.title search)

/-- C4, evaluated: the search text "fi" over "Sci-Fi Stories" and "History"
keeps "Sci-Fi Stories" only, and both shows are kept by the empty text and by
a text of two blanks. -/
theorem search_step_spec_witness :
    (searchStep sampleBuiltins "fi" storyShows).map (fun p => p.title) = ["Sci-Fi Stories"] ∧
    searchStep sampleBuiltins "" storyShows = storyShows ∧
    searchStep sampleBuiltins "  " storyShows = storyShows ∧
    ((searchStep sampleBuiltins "fi" storyShows).Sublist storyShows ∧
      ∀ p, p ∈ searchStep sampleBuiltins "fi" storyShows ↔
        p ∈ storyShows ∧ ∃ s u : List Char,
          (sampleBuiltins.toLowerCase p.title).data =
            s ++ (sampleBuiltins.toLowerCase "fi").data ++ u) :=
  ⟨by decide,
    (search_step_spec sampleBuiltins "" storyShows).1 (by decide),
    (search_step_spec sampleBuiltins "  " storyShows).1 (by decide),
    (search_step_spec sampleBuiltins "fi" storyShows).2 ⟨'f', by decide, by decide⟩⟩

/-- C5: for a genre selector `G` other than "all" the genre step keeps a show
exactly when its genre identifier list contains the identifier `Number(G)`, in
source order; with "all" it keeps every show. -/
theorem genre_step_spec (env : Builtins) (G : String) (data : List Podcast) :
    (G ≠ "all" →
      (genreStep env G data).Sublist data ∧
      ∀ p, p ∈ genreStep env G data ↔
        p ∈ data ∧ ∃ n : Int, env.toNumber G = some n ∧ n ∈ p.genres) ∧
    genreStep env "all" data = data := by
  refine ⟨fun h => ⟨genreStep_sublist _ _ _, ?_⟩, genreStep_all env data⟩
  intro p
  rw [genreStep_of_ne env G data h, List.mem_filter]
  exact and_congr_right (fun _ => arrayIncludes_iff _ _)

/-- C5, evaluated: the selector "7" keeps "Sci-Fi Stories" (genres 2 and 7) and
drops "History" (genre 5). -/
theorem genre_step_spec_witness :
    (genreStep sampleBuiltins "7" storyShows).map (fun p => p.title) = ["Sci-Fi Stories"] ∧
    ((genreStep sampleBuiltins "7" storyShows).Sublist storyShows ∧
      ∀ p, p ∈ genreStep sampleBuiltins "7" storyShows ↔
        p ∈ storyShows ∧ ∃ n : Int, sampleBuiltins.toNumber "7" = some n ∧ n ∈ p.genres) :=
  ⟨by decide, (genre_step_spec sampleBuiltins "7" storyShows).1 (by decide)⟩

/-- C7: for the sort key "default", and for every key that is none of
`title-asc`, `title-desc`, `date-asc`, `date-desc`, `applyFilters` does not
reorder: its result is the filtered shows, in the order of the source list. -/
theorem unrecognised_key_keeps_order (env : Builtins) (shows : List Podcast)
    (search sortKey genre : String) :
    (sortKey ≠ "title-asc" → sortKey ≠ "title-desc" → sortKey ≠ "date-asc" →
      sortKey ≠ "date-desc" →
      applyFilters env shows search sortKey genre =
          genreStep env genre (searchStep env search shows) ∧
      (applyFilters env shows search sortKey genre).Sublist shows) ∧
    (applyFilters env shows search "default" genre =
        genreStep env genre (searchStep env search shows) ∧
      (applyFilters env shows search "default" genre).Sublist shows) := by
  have key : ∀ k : String, k ≠ "title-asc" → k ≠ "title-desc" → k ≠ "date-asc" →
      k ≠ "date-desc" →
      applyFilters env shows search k genre = genreStep env genre (searchStep env search shows) ∧
      (applyFilters env shows search k genre).Sublist shows := by
    intro k h1 h2 h3 h4
    have h : applyFilters env shows search k genre =
        genreStep env genre (searchStep env search shows) :=
      sortStep_of_unrecognised env k _ h1 h2 h3 h4
    rw [h]
    exact ⟨rfl, (genreStep_sublist _ _ _).trans (searchStep_sublist _ _ _)⟩
  exact ⟨key sortKey, key "default" (by decide) (by decide) (by decide) (by decide)⟩

/-- C7, evaluated: with the unrecognised key "newest" the two shows come back
in source order, whereas `title-asc` swaps them. -/
theorem unrecognised_key_keeps_order_witness :
    applyFilters sampleBuiltins storyShows "" "newest" "all" = storyShows ∧
    (applyFilters sampleBuiltins storyShows "" "title-asc" "all").map (fun p => p.title) =
      ["History", "Sci-Fi Stories"] :=
  ⟨((unrecognised_key_keeps_order sampleBuiltins storyShows "" "newest" "all").1
      (by decide) (by decide) (by decide) (by decide)).1.trans (by decide),
    by decide⟩

/-! ## The sort -/

theorem perm_insertSorted {α : Type} (cmp : α → α → Option Int) (a : α) (l : List α) :
    (insertSorted cmp a l).Perm (a :: l) := by
  induction l with
  | nil => exact List.Perm.refl _
  | cons b l ih =>
    unfold insertSorted
    split
    · exact List.Perm.refl _
    · exact (List.Perm.cons b ih).trans (List.Perm.swap a b l)

theorem perm_arraySort {α : Type} (cmp : α → α → Option Int) (l : List α) :
    (arraySort cmp l).Perm l := by
  induction l with
  | nil => exact List.Perm.refl _
  | cons a l ih =>
    unfold arraySort
    exact (perm_insertSorted cmp a _).trans (List.Perm.cons a ih)

theorem perm_sortStep (env : Builtins) (sortKey : String) (data : List Podcast) :
    (sortStep env sortKey data).Perm data := by
  unfold sortStep
  split
  · exact perm_arraySort _ _
  · split
    · exact perm_arraySort _ _
    · split
      · exact perm_arraySort _ _
      · split
        · exact perm_arraySort _ _
        · exact List.Perm.refl _

theorem mem_applyFilters (env : Builtins) (shows : List Podcast) (search sortKey genre : String)
    (p : Podcast) :
    p ∈ applyFilters env shows search sortKey genre ↔
      p ∈ genreStep env genre (searchStep env search shows) :=
  (perm_sortStep env sortKey _).mem_iff

theorem pairwise_insertSorted {α : Type} (cmp : α → α → Option Int) (S : α → Prop)
    (htot : ∀ a b, S a → S b → ¬ sortCompare (cmp a b) ≤ 0 → sortCompare (cmp b a) ≤ 0)
    (htr : ∀ a b c, S a → S b → S c → sortCompare (cmp a b) ≤ 0 → sortCompare (cmp b c) ≤ 0 →
      sortCompare (cmp a c) ≤ 0)
    (a : α) (l : List α) (ha : S a) (hl : ∀ x ∈ l, S x)
    (hp : l.Pairwise (fun x y => sortCompare (cmp x y) ≤ 0)) :
    (insertSorted cmp a l).Pairwise (fun x y => sortCompare (cmp x y) ≤ 0) := by
  induction l with
  | nil => simp [insertSorted]
  | cons b l ih =>
    rw [List.pairwise_cons] at hp
    have hb : S b := hl b (List.mem_cons_self b l)
    have hl' : ∀ x ∈ l, S x := fun x hx => hl x (List.mem_cons_of_mem b hx)
    unfold insertSorted
    split
    · rename_i hab
      rw [List.pairwise_cons]
      refine ⟨?_, List.pairwise_cons.mpr hp⟩
      intro x hx
      rcases List.mem_cons.mp hx with rfl | hx
      · exact hab
      · exact htr a b x ha hb (hl' x hx) hab (hp.1 x hx)
    · rename_i hab
      rw [List.pairwise_cons]
      refine ⟨?_, ih hl' hp.2⟩
      intro x hx
      rcases List.mem_cons.mp ((perm_insertSorted cmp a l).mem_iff.mp hx) with rfl | hx
      · exact htot _ _ ha hb hab
      · exact hp.1 x hx

theorem pairwise_arraySort {α : Type} (cmp : α → α → Option Int) (S : α → Prop)
    (htot : ∀ a b, S a → S b → ¬ sortCompare (cmp a b) ≤ 0 → sortCompare (cmp b a) ≤ 0)
    (htr : ∀ a b c, S a → S b → S c → sortCompare (cmp a b) ≤ 0 → sortCompare (cmp b c) ≤ 0 →
      sortCompare (cmp a c) ≤ 0)
    (l : List α) (hl : ∀ x ∈ l, S x) :
    (arraySort cmp l).Pairwise (fun x y => sortCompare (cmp x y) ≤ 0) := by
  induction l with
  | nil => simp [arraySort]
  | cons a l ih =>
    have hl' : ∀ x ∈ l, S x := fun x hx => hl x (List.mem_cons_of_mem a hx)
    unfold arraySort
    apply pairwise_insertSorted cmp S htot htr a _ (hl a (List.mem_cons_self a l))
    · intro x hx
      exact hl' x ((perm_arraySort cmp l).mem_iff.mp hx)
    · exact ih hl'

theorem consistent_flip {α : Type} (cmp : α → α → Int) (h : ConsistentComparator cmp) (a b : α)
    (hab : cmp a b < 0) : cmp b a > 0 := by
  obtain ⟨hrefl, hsym, _, hlt, _⟩ := h
  by_contra hcon
  rcases lt_or_eq_of_le (not_lt.mp hcon) with h1 | h1
  · have := hlt a b a hab h1
    have := hrefl a
    omega
  · have := hsym b a h1
    omega

theorem consistent_flip_gt {α : Type} (cmp : α → α → Int) (h : ConsistentComparator cmp) (a b : α)
    (hab : cmp a b > 0) : cmp b a < 0 := by
  obtain ⟨hrefl, hsym, _, _, hgt⟩ := h
  by_contra hcon
  rcases lt_or_eq_of_le (not_lt.mp hcon) with h1 | h1
  · have := hgt a b a hab h1
    have := hrefl a
    omega
  · have h2 := hsym b a h1.symm
    omega

theorem consistent_total {α : Type} (cmp : α → α → Int) (h : ConsistentComparator cmp) (a b : α)
    (hab : ¬ cmp a b ≤ 0) : cmp b a ≤ 0 :=
  le_of_lt (consistent_flip_gt cmp h a b (not_le.mp hab))

theorem consistent_trans {α : Type} (cmp : α → α → Int) (h : ConsistentComparator cmp)
    (a b c : α) (hab : cmp a b ≤ 0) (hbc : cmp b c ≤ 0) : cmp a c ≤ 0 := by
  have h' := h
  obtain ⟨_, hsym, heq, hlt, _⟩ := h
  by_contra hcon
  have hca : cmp c a < 0 := consistent_flip_gt cmp h' a c (not_le.mp hcon)
  rcases lt_or_eq_of_le hab with h1 | h1 <;> rcases lt_or_eq_of_le hbc with h2 | h2
  · have := hlt a b c h1 h2
    omega
  · have h3 := hlt c a b hca h1
    have h4 := hsym b c h2
    omega
  · have h3 := hlt b c a h2 hca
    have h4 := hsym a b h1
    omega
  · have := heq a b c h1 h2
    omega

theorem compareChars_self (s : List Char) : compareChars s s = 0 := by
  induction s with
  | nil => rfl
  | cons a s ih => simp [compareChars, ih]

theorem compareChars_swap (s t : List Char) : compareChars t s = - compareChars s t := by
  induction s generalizing t with
  | nil => cases t <;> simp [compareChars]
  | cons a s ih =>
    cases t with
    | nil => simp [compareChars]
    | cons b t =>
      simp only [compareChars]
      split_ifs <;> first | omega | exact ih t

theorem compareChars_of_eq (s t u : List Char) (h : compareChars s t = 0) :
    compareChars t u = compareChars s u := by
  induction s generalizing t u with
  | nil =>
    cases t with
    | nil => rfl
    | cons b t => simp [compareChars] at h
  | cons a s ih =>
    cases t with
    | nil => simp [compareChars] at h
    | cons b t =>
      simp only [compareChars] at h
      by_cases h1 : a.toNat < b.toNat
      · rw [if_pos h1] at h
        omega
      · rw [if_neg h1] at h
        by_cases h2 : b.toNat < a.toNat
        · rw [if_pos h2] at h
          omega
        · rw [if_neg h2] at h
          have hab : a.toNat = b.toNat := by omega
          cases u with
          | nil => simp [compareChars]
          | cons c u =>
            simp only [compareChars, hab]
            rw [ih t u h]

theorem compareChars_lt_trans (s t u : List Char) (h1 : compareChars s t < 0)
    (h2 : compareChars t u < 0) : compareChars s u < 0 := by
  induction s generalizing t u with
  | nil =>
    cases t with
    | nil => simp [compareChars] at h1
    | cons b t =>
      cases u with
      | nil => simp [compareChars] at h2
      | cons c u => simp [compareChars]
  | cons a s ih =>
    cases t with
    | nil => simp [compareChars] at h1
    | cons b t =>
      cases u with
      | nil => simp [compareChars] at h2
      | cons c u =>
        simp only [compareChars] at h1 h2 ⊢
        split_ifs at h1 h2 ⊢ <;> first | omega | exact ih t u h1 h2

theorem compareChars_consistent :
    ConsistentComparator (fun a b : String => compareChars a.data b.data) := by
  refine ⟨fun a => compareChars_self _, ?_, ?_, ?_, ?_⟩
  · intro a b h
    show compareChars b.data a.data = 0
    have h' : compareChars a.data b.data = 0 := h
    rw [compareChars_swap, h']
    rfl
  · intro a b c h1 h2
    show compareChars a.data c.data = 0
    rw [← compareChars_of_eq _ _ _ h1]
    exact h2
  · intro a b c h1 h2
    exact compareChars_lt_trans _ _ _ h1 h2
  · intro a b c h1 h2
    show compareChars a.data c.data > 0
    have h1' : compareChars b.data a.data < 0 := by
      rw [compareChars_swap]
      have : compareChars a.data b.data > 0 := h1
      omega
    have h2' : compareChars c.data b.data < 0 := by
      rw [compareChars_swap]
      have : compareChars b.data c.data > 0 := h2
      omega
    have h3 := compareChars_lt_trans _ _ _ h2' h1'
    rw [compareChars_swap] at h3
    omega

theorem applyFilters_subset (env : Builtins) (shows : List Podcast)
    (search sortKey genre : String) (p : Podcast)
    (hp : p ∈ applyFilters env shows search sortKey genre) : p ∈ shows :=
  (searchStep_sublist env search shows).subset
    ((genreStep_sublist env genre _).subset ((mem_applyFilters env shows search sortKey genre p).mp hp))

theorem dateCompare_le_iff (x y : Option Int) (hx : x.isSome = true) (hy : y.isSome = true) :
    sortCompare (dateDiff x y) ≤ 0 ↔ ∃ a b : Int, x = some a ∧ y = some b ∧ a ≤ b := by
  cases x with
  | none => simp at hx
  | some a =>
    cases y with
    | none => simp at hy
    | some b =>
      simp only [dateDiff, sortCompare, Option.getD_some, Option.some.injEq]
      constructor
      · intro h
        exact ⟨a, b, rfl, rfl, by omega⟩
      · rintro ⟨a', b', rfl, rfl, h⟩
        omega

theorem pairwise_title_asc (env : Builtins) (h : ConsistentComparator env.localeCompare)
    (data : List Podcast) :
    (sortStep env "title-asc" data).Pairwise
      (fun a b => env.localeCompare a.title b.title ≤ 0) := by
  unfold sortStep
  rw [if_pos rfl]
  exact pairwise_arraySort (fun a b : Podcast => some (env.localeCompare a.title b.title))
    (fun _ => True)
    (fun a b _ _ hab => consistent_total env.localeCompare h a.title b.title hab)
    (fun a b c _ _ _ hab hbc =>
      consistent_trans env.localeCompare h a.title b.title c.title hab hbc)
    data (fun _ _ => trivial)

theorem pairwise_title_desc (env : Builtins) (h : ConsistentComparator env.localeCompare)
    (data : List Podcast) :
    (sortStep env "title-desc" data).Pairwise
      (fun a b => 0 ≤ env.localeCompare a.title b.title) := by
  unfold sortStep
  rw [if_neg (by decide), if_pos rfl]
  have hp := pairwise_arraySort (fun a b : Podcast => some (env.localeCompare b.title a.title))
    (fun _ => True)
    (fun a b _ _ hab => consistent_total env.localeCompare h b.title a.title hab)
    (fun a b c _ _ _ hab hbc =>
      consistent_trans env.localeCompare h c.title b.title a.title hbc hab)
    data (fun _ _ => trivial)
  refine hp.imp ?_
  intro a b hba
  have hba' : env.localeCompare b.title a.title ≤ 0 := hba
  by_contra hcon
  have := consistent_flip env.localeCompare h a.title b.title (not_le.mp hcon)
  omega

theorem pairwise_date_asc (env : Builtins) (data : List Podcast)
    (hd : ∀ p ∈ data, (env.dateTime p.updated).isSome = true) :
    (sortStep env "date-asc" data).Pairwise
      (fun a b => ∃ ta tb : Int, env.dateTime a.updated = some ta ∧
        env.dateTime b.updated = some tb ∧ ta ≤ tb) := by
  have hperm := perm_sortStep env "date-asc" data
  revert hperm
  unfold sortStep
  rw [if_neg (by decide), if_neg (by decide), if_pos rfl]
  intro hperm
  have hp := pairwise_arraySort
    (fun a b : Podcast => dateDiff (env.dateTime a.updated) (env.dateTime b.updated))
    (fun p => (env.dateTime p.updated).isSome = true)
    (fun a b ha hb hab => by
      rw [dateCompare_le_iff _ _ ha hb] at hab
      rw [dateCompare_le_iff _ _ hb ha]
      obtain ⟨ta, hta⟩ := Option.isSome_iff_exists.mp ha
      obtain ⟨tb, htb⟩ := Option.isSome_iff_exists.mp hb
      refine ⟨tb, ta, htb, hta, ?_⟩
      by_contra hcon
      exact hab ⟨ta, tb, hta, htb, by omega⟩)
    (fun a b c ha hb hc hab hbc => by
      rw [dateCompare_le_iff _ _ ha hb] at hab
      rw [dateCompare_le_iff _ _ hb hc] at hbc
      rw [dateCompare_le_iff _ _ ha hc]
      obtain ⟨ta, tb, hta, htb, h1⟩ := hab
      obtain ⟨tb', tc, htb', htc, h2⟩ := hbc
      rw [htb] at htb'
      cases htb'
      exact ⟨ta, tc, hta, htc, le_trans h1 h2⟩)
    data hd
  refine hp.imp_of_mem ?_
  intro a b ha hb hab
  exact (dateCompare_le_iff _ _ (hd a (hperm.mem_iff.mp ha)) (hd b (hperm.mem_iff.mp hb))).mp hab

theorem pairwise_date_desc (env : Builtins) (data : List Podcast)
    (hd : ∀ p ∈ data, (env.dateTime p.updated).isSome = true) :
    (sortStep env "date-desc" data).Pairwise
      (fun a b => ∃ ta tb : Int, env.dateTime a.updated = some ta ∧
        env.dateTime b.updated = some tb ∧ tb ≤ ta) := by
  have hperm := perm_sortStep env "date-desc" data
  revert hperm
  unfold sortStep
  rw [if_neg (by decide), if_neg (by decide), if_neg (by decide), if_pos rfl]
  intro hperm
  have hp := pairwise_arraySort
    (fun a b : Podcast => dateDiff (env.dateTime b.updated) (env.dateTime a.updated))
    (fun p => (env.dateTime p.updated).isSome = true)
    (fun a b ha hb hab => by
      rw [dateCompare_le_iff _ _ hb ha] at hab
      rw [dateCompare_le_iff _ _ ha hb]
      obtain ⟨ta, hta⟩ := Option.isSome_iff_exists.mp ha
      obtain ⟨tb, htb⟩ := Option.isSome_iff_exists.mp hb
      refine ⟨ta, tb, hta, htb, ?_⟩
      by_contra hcon
      exact hab ⟨tb, ta, htb, hta, by omega⟩)
    (fun a b c ha hb hc hab hbc => by
      rw [dateCompare_le_iff _ _ hb ha] at hab
      rw [dateCompare_le_iff _ _ hc hb] at hbc
      rw [dateCompare_le_iff _ _ hc ha]
      obtain ⟨tb, ta, htb, hta, h1⟩ := hab
      obtain ⟨tc, tb', htc, htb', h2⟩ := hbc
      rw [htb] at htb'
      cases htb'
      exact ⟨tc, ta, htc, hta, le_trans h2 h1⟩)
    data hd
  refine hp.imp_of_mem ?_
  intro a b ha hb hab
  obtain ⟨tb, ta, htb, hta, h1⟩ :=
    (dateCompare_le_iff _ _ (hd b (hperm.mem_iff.mp hb)) (hd a (hperm.mem_iff.mp ha))).mp hab
  exact ⟨ta, tb, hta, htb, h1⟩

theorem filtered_dates_valid (env : Builtins) (shows : List Podcast) (search genre : String)
    (hd : ∀ p ∈ shows, (env.dateTime p.updated).isSome = true) :
    ∀ p ∈ genreStep env genre (searchStep env search shows),
      (env.dateTime p.updated).isSome = true :=
  fun p hp => hd p ((searchStep_sublist env search shows).subset
    ((genreStep_sublist env genre _).subset hp))

/-- C6, amended: the list returned by `applyFilters` is ordered by the sort
key.  For a `localeCompare` that is a consistent comparison function, adjacent
titles are
non-decreasing with `title-asc` and non-increasing with `title-desc`; for shows
whose last-updated strings are valid dates, adjacent parsed timestamps are
non-increasing with `date-desc` and non-decreasing with `date-asc`. -/
theorem sorted_by_key (env : Builtins) (shows : List Podcast) (search genre : String) :
    (ConsistentComparator env.localeCompare →
      List.Chain' (fun a b => env.localeCompare a.title b.title ≤ 0)
        (applyFilters env shows search "title-asc" genre) ∧
      List.Chain' (fun a b => 0 ≤ env.localeCompare a.title b.title)
        (applyFilters env shows search "title-desc" genre)) ∧
    ((∀ p ∈ shows, (env.dateTime p.updated).isSome = true) →
      List.Chain' (fun a b => ∃ ta tb : Int, env.dateTime a.updated = some ta ∧
          env.dateTime b.updated = some tb ∧ tb ≤ ta)
        (applyFilters env shows search "date-desc" genre) ∧
      List.Chain' (fun a b => ∃ ta tb : Int, env.dateTime a.updated = some ta ∧
          env.dateTime b.updated = some tb ∧ ta ≤ tb)
        (applyFilters env shows search "date-asc" genre)) :=
  ⟨fun h => ⟨(pairwise_title_asc env h _).chain', (pairwise_title_desc env h _).chain'⟩,
    fun hd =>
      ⟨(pairwise_date_desc env _ (filtered_dates_valid env shows search genre hd)).chain',
        (pairwise_date_asc env _ (filtered_dates_valid env shows search genre hd)).chain'⟩⟩

/-- C6, amended, evaluated on "Sci-Fi Stories" (2022) and "History" (1970): `title-asc`
and `date-asc` put "History" first, `title-desc` and `date-desc` put it last. -/
theorem sorted_by_key_witness :
    (List.Chain' (fun a b => sampleBuiltins.localeCompare a.title b.title ≤ 0)
        (applyFilters sampleBuiltins storyShows "" "title-asc" "all") ∧
      List.Chain' (fun a b => 0 ≤ sampleBuiltins.localeCompare a.title b.title)
        (applyFilters sampleBuiltins storyShows "" "title-desc" "all")) ∧
    (List.Chain' (fun a b => ∃ ta tb : Int, sampleBuiltins.dateTime a.updated = some ta ∧
          sampleBuiltins.dateTime b.updated = some tb ∧ tb ≤ ta)
        (applyFilters sampleBuiltins storyShows "" "date-desc" "all") ∧
      List.Chain' (fun a b => ∃ ta tb : Int, sampleBuiltins.dateTime a.updated = some ta ∧
          sampleBuiltins.dateTime b.updated = some tb ∧ ta ≤ tb)
        (applyFilters sampleBuiltins storyShows "" "date-asc" "all")) ∧
    (applyFilters sampleBuiltins storyShows "" "title-asc" "all").map (fun p => p.title) =
      ["History", "Sci-Fi Stories"] ∧
    (applyFilters sampleBuiltins storyShows "" "title-desc" "all").map (fun p => p.title) =
      ["Sci-Fi Stories", "History"] ∧
    (applyFilters sampleBuiltins storyShows "" "date-desc" "all").map (fun p => p.title) =
      ["Sci-Fi Stories", "History"] ∧
    (applyFilters sampleBuiltins storyShows "" "date-asc" "all").map (fun p => p.title) =
      ["History", "Sci-Fi Stories"] :=
  ⟨(sorted_by_key sampleBuiltins storyShows "" "all").1 compareChars_consistent,
    (sorted_by_key sampleBuiltins storyShows "" "all").2 (by decide),
    by decide, by decide, by decide, by decide⟩

/-- C6, as stated, fails for a show list with an unparsable `updated` string:
with `date-asc` every comparison against the invalid date is `NaN`, the array
is left in source order, and the show of 2022 comes before the show of 1970;
the adjacent timestamps are not non-decreasing. -/
theorem invalid_date_breaks_date_order :
    (applyFilters sampleBuiltins undatedShows "" "date-asc" "all").map (fun p => p.id) =
      [1, 9, 2] ∧
    sampleBuiltins.dateTime "2022-11-03T07:00:00.000Z" = some 1667458800000 ∧
    sampleBuiltins.dateTime "not a date" = none ∧
    sampleBuiltins.dateTime "1970-01-02T00:00:00.000Z" = some 86400000 ∧
    ¬ List.Chain' (fun a b => ∃ ta tb : Int, sampleBuiltins.dateTime a.updated = some ta ∧
          sampleBuiltins.dateTime b.updated = some tb ∧ ta ≤ tb)
        (applyFilters sampleBuiltins undatedShows "" "date-asc" "all") := by
  refine ⟨by decide, by decide, by decide, by decide, ?_⟩
  intro h
  have hres : applyFilters sampleBuiltins undatedShows "" "date-asc" "all" = undatedShows := by
    decide
  rw [hres] at h
  obtain ⟨ta, tb, _, hb, _⟩ := (List.chain'_cons.mp h).1
  have hnone : sampleBuiltins.dateTime "not a date" = none := by decide
  have hb' : sampleBuiltins.dateTime "not a date" = some tb := hb
  rw [hnone] at hb'
  cases hb'

/-! ## The search result as a whole -/

theorem mem_applyFilters_all (env : Builtins) (shows : List Podcast) (S sortKey : String)
    (p : Podcast) :
    p ∈ applyFilters env shows S sortKey "all" ↔ p ∈ searchStep env S shows := by
  rw [mem_applyFilters, genreStep_all]

/-- C3, as stated, fails for a search text of white space: with the text " "
the result still contains "History", whose title does not contain " ". -/
theorem blank_search_keeps_unmatched :
    mkShow 2 "History" "1970-01-02T00:00:00.000Z" [5] ∈
      applyFilters sampleBuiltins storyShows " " "default" "all" ∧
    ¬ titleContains sampleBuiltins
      (mkShow 2 "History" "1970-01-02T00:00:00.000Z" [5]).title " " := by
  refine ⟨by decide, ?_⟩
  rw [← includes_iff]
  decide

/-- C3, amended: with the genre selector "all", for a search text `S` with at
least one character that is not white space (and for the empty text) the
result of `applyFilters` contains exactly the shows of the list whose title
contains `S` case-insensitively; for a text made of white space only it
contains every show of the list. -/
theorem search_result_exact (env : Builtins) (shows : List Podcast) (S sortKey : String) :
    ((∃ c ∈ S.data, isWhiteSpace c = false) →
      ∀ p, p ∈ applyFilters env shows S sortKey "all" ↔
        p ∈ shows ∧ titleContains env p.title S) ∧
    (S = "" → env.toLowerCase "" = "" →
      ∀ p, p ∈ applyFilters env shows S sortKey "all" ↔
        p ∈ shows ∧ titleContains env p.title S) ∧
    ((∀ c ∈ S.data, isWhiteSpace c = true) →
      ∀ p, p ∈ applyFilters env shows S sortKey "all" ↔ p ∈ shows) := by
  refine ⟨?_, ?_, ?_⟩
  · intro h p
    rw [mem_applyFilters_all, searchStep_of_visible env S shows h, List.mem_filter]
    exact and_congr_right (fun _ => includes_iff env p.title S)
  · intro hS hlow p
    rw [mem_applyFilters_all, hS, searchStep_of_blank env "" shows (by decide)]
    constructor
    · intro hp
      refine ⟨hp, [], (env.toLowerCase p.title).data, ?_⟩
      rw [hlow]
      rfl
    · exact fun hp => hp.1
  · intro h p
    rw [mem_applyFilters_all, searchStep_of_blank env S shows h]

/-- C3, amended, evaluated: the text "fi" selects exactly the shows whose title
contains it, and the text " " selects every show. -/
theorem search_result_exact_witness :
    (∀ p, p ∈ applyFilters sampleBuiltins storyShows "fi" "title-asc" "all" ↔
      p ∈ storyShows ∧ titleContains sampleBuiltins p.title "fi") ∧
    (∀ p, p ∈ applyFilters sampleBuiltins storyShows "" "title-asc" "all" ↔
      p ∈ storyShows ∧ titleContains sampleBuiltins p.title "") ∧
    (∀ p, p ∈ applyFilters sampleBuiltins storyShows " " "title-asc" "all" ↔ p ∈ storyShows) ∧
    (applyFilters sampleBuiltins storyShows "fi" "title-asc" "all").map (fun p => p.title) =
      ["Sci-Fi Stories"] :=
  ⟨(search_result_exact sampleBuiltins storyShows "fi" "title-asc").1 ⟨'f', by decide, by decide⟩,
    (search_result_exact sampleBuiltins storyShows "" "title-asc").2.1 rfl (by decide),
    (search_result_exact sampleBuiltins storyShows " " "title-asc").2.2 (by decide),
    by decide⟩

/-! ## Page size -/

theorem calculatePageSize_small (w : Int) (h : w ≤ 1024) : calculatePageSize w = 10 := by
  unfold calculatePageSize
  rw [if_pos h]

theorem calculatePageSize_large (w : Int) (h : 1024 < w) :
    calculatePageSize w = (w / 260) * 2 := by
  unfold calculatePageSize
  rw [if_neg (by omega)]

theorem floor_width_div (w : Int) : ⌊(w : ℚ) / 260⌋ = w / 260 := by
  have := Rat.floor_intCast_div_natCast w 260
  simpa using this

theorem six_le_calculatePageSize (w : Int) : 6 ≤ calculatePageSize w := by
  by_cases h : w ≤ 1024
  · rw [calculatePageSize_small w h]
    decide
  · rw [calculatePageSize_large w (by omega)]
    have : 3 ≤ w / 260 := by omega
    omega

/-- C11: `calculatePageSize` sets the page size to 10 for a viewport width
`w ≤ 1024` and to `floor(w / 260) * 2` for `w > 1024`; width 1024 gives 10 and
width 1025 gives 6. -/
theorem calculatePageSize_spec (w : Int) :
    (w ≤ 1024 → calculatePageSize w = 10) ∧
    (1024 < w → calculatePageSize w = ⌊(w : ℚ) / 260⌋ * 2) ∧
    calculatePageSize 1024 = 10 ∧ calculatePageSize 1025 = 6 := by
  refine ⟨calculatePageSize_small w, ?_, by decide, by decide⟩
  intro h
  rw [floor_width_div, calculatePageSize_large w h]

/-- C11, evaluated: width 800 gives 10, width 1300 gives five columns and page
size 10, width 1920 gives seven columns and page size 14. -/
theorem calculatePageSize_spec_witness :
    calculatePageSize 800 = 10 ∧
    calculatePageSize 1300 = ⌊((1300 : Int) : ℚ) / 260⌋ * 2 ∧
    calculatePageSize 1300 = 10 ∧ calculatePageSize 1920 = 14 :=
  ⟨(calculatePageSize_spec 800).1 (by decide), (calculatePageSize_spec 1300).2.1 (by decide),
    by decide, by decide⟩

/-- C12: the page size is never 0: the initial page size is 10, every run of
`calculatePageSize` yields at least 1 (indeed at least 6), and so does every
sequence of runs starting from the initial state. -/
theorem pageSize_never_zero (jsonParse : String → Except Thrown Parsed)
    (getItem : Except Thrown (Option String)) (st : ProviderState) (w : Int)
    (widths : List Int) :
    (initialState jsonParse getItem).pageSize = 10 ∧
    1 ≤ calculatePageSize w ∧
    1 ≤ (resize st w).pageSize ∧
    (resize st w).pageSize ≠ 0 ∧
    1 ≤ (widths.foldl resize (setPageSize st (initialState jsonParse getItem).pageSize)).pageSize := by
  have h6 := six_le_calculatePageSize w
  have hres : ∀ (t : ProviderState) (x : Int), 1 ≤ (resize t x).pageSize := by
    intro t x
    have := six_le_calculatePageSize x
    show 1 ≤ (calculatePageSize x).toNat
    omega
  refine ⟨rfl, by omega, hres st w, ?_, ?_⟩
  · have := hres st w
    omega
  · have key : ∀ (l : List Int) (t : ProviderState), 1 ≤ t.pageSize →
        1 ≤ (l.foldl resize t).pageSize := by
      intro l
      induction l with
      | nil => intro t ht; exact ht
      | cons x l ih =>
        intro t _
        exact ih (resize t x) (hres t x)
    apply key
    show 1 ≤ 10
    decide

/-! ## Persisted filter state -/

theorem loadFilterState_of_value (jsonParse : String → Except Thrown Parsed) (text : String)
    (search sortKey genre : JSValue) (htext : text ≠ "")
    (hparse : jsonParse text = .ok (.value search sortKey genre)) :
    loadFilterState jsonParse (.ok (some text)) =
      { search := orDefault search "", sortKey := orDefault sortKey "date-desc",
        genre := orDefault genre "all" } := by
  unfold loadFilterState loadFilterStateTry
  simp only [if_pos htext, hparse, readFilters]

theorem orDefault_string (s d : String) (h : s ≠ "") : orDefault (.string s) d = .string s := by
  unfold orDefault JSValue.truthy
  rw [if_pos (decide_eq_true h)]

theorem orDefault_empty (d : String) : orDefault (.string "") d = .string d := by
  unfold orDefault JSValue.truthy
  simp

theorem orDefault_search (s : String) : orDefault (.string s) "" = .string s := by
  by_cases h : s = ""
  · rw [h, orDefault_empty]
  · exact orDefault_string s "" h

/-- C13, as stated, fails for a stored record with an empty sort key and an
empty genre: the state starts with the defaults "date-desc" and "all", not
with the stored empty strings. -/
theorem empty_stored_keys_replaced :
    sampleParse storedEmptyKeys = .ok (.value (.string "x") (.string "") (.string "")) ∧
    (loadFilterState sampleParse (.ok (some storedEmptyKeys))).sortKey = .string "date-desc" ∧
    (loadFilterState sampleParse (.ok (some storedEmptyKeys))).genre = .string "all" ∧
    (loadFilterState sampleParse (.ok (some storedEmptyKeys))).sortKey ≠ .string "" :=
  ⟨by rfl, by decide, by decide, by decide⟩

/-- C13, amended: for every persisted record present under the storage key
whose sort key and genre are not empty, the state starts with exactly the
stored search, sort key and genre; an empty sort key or genre is replaced by
the default "date-desc" or "all"; the page always starts at 1. -/
theorem stored_filters_restored (jsonParse : String → Except Thrown Parsed) (text : String)
    (search sortKey genre : String) (htext : text ≠ "")
    (hparse : jsonParse text = .ok (.value (.string search) (.string sortKey) (.string genre))) :
    (initialState jsonParse (.ok (some text))).search = .string search ∧
    (sortKey ≠ "" → (initialState jsonParse (.ok (some text))).sortKey = .string sortKey) ∧
    (genre ≠ "" → (initialState jsonParse (.ok (some text))).genre = .string genre) ∧
    (sortKey = "" → (initialState jsonParse (.ok (some text))).sortKey = .string "date-desc") ∧
    (genre = "" → (initialState jsonParse (.ok (some text))).genre = .string "all") ∧
    (initialState jsonParse (.ok (some text))).page = 1 ∧
    (∀ getItem, (initialState jsonParse getItem).page = 1) := by
  have h := loadFilterState_of_value jsonParse text _ _ _ htext hparse
  refine ⟨?_, ?_, ?_, ?_, ?_, rfl, fun _ => rfl⟩
  · show (loadFilterState jsonParse (.ok (some text))).search = _
    rw [h]
    exact orDefault_search search
  · intro hk
    show (loadFilterState jsonParse (.ok (some text))).sortKey = _
    rw [h]
    exact orDefault_string sortKey _ hk
  · intro hg
    show (loadFilterState jsonParse (.ok (some text))).genre = _
    rw [h]
    exact orDefault_string genre _ hg
  · intro hk
    show (loadFilterState jsonParse (.ok (some text))).sortKey = _
    rw [h, hk]
    exact orDefault_empty _
  · intro hg
    show (loadFilterState jsonParse (.ok (some text))).genre = _
    rw [h, hg]
    exact orDefault_empty _

/-- C13, amended, evaluated: the stored record with search "x", sort key
"title-desc" and genre "3" gives exactly these values and page 1. -/
theorem stored_filters_restored_witness :
    (initialState sampleParse (.ok (some storedSample))).search = .string "x" ∧
    (initialState sampleParse (.ok (some storedSample))).sortKey = .string "title-desc" ∧
    (initialState sampleParse (.ok (some storedSample))).genre = .string "3" ∧
    (initialState sampleParse (.ok (some storedSample))).page = 1 :=
  have h := stored_filters_restored sampleParse storedSample "x" "title-desc" "3"
    (by decide) (by rfl)
  ⟨h.1, h.2.1 (by decide), h.2.2.1 (by decide), h.2.2.2.2.2.1⟩

/-- C14: `loadFilterState` always returns a record; it is the defaults (search
"", sort key "date-desc", genre "all") when the storage has no entry or an
empty one, when reading the storage throws, when parsing the stored text
throws, and when the stored text parses to `null`. -/
theorem loadFilterState_defaults (jsonParse : String → Except Thrown Parsed) :
    (defaultFilters.search = .string "" ∧ defaultFilters.sortKey = .string "date-desc" ∧
      defaultFilters.genre = .string "all") ∧
    loadFilterState jsonParse (.ok none) = defaultFilters ∧
    loadFilterState jsonParse (.ok (some "")) = defaultFilters ∧
    (∀ e, loadFilterState jsonParse (.error e) = defaultFilters) ∧
    (∀ text e, jsonParse text = .error e →
      loadFilterState jsonParse (.ok (some text)) = defaultFilters) ∧
    (∀ text, jsonParse text = .ok .null →
      loadFilterState jsonParse (.ok (some text)) = defaultFilters) ∧
    (∀ getItem, loadFilterStateTry jsonParse getItem = .ok none ∨
      (∃ e, loadFilterStateTry jsonParse getItem = .error e) →
      loadFilterState jsonParse getItem = defaultFilters) := by
  refine ⟨⟨rfl, rfl, rfl⟩, rfl, rfl, fun _ => rfl, ?_, ?_, ?_⟩
  · intro text e h
    unfold loadFilterState loadFilterStateTry
    by_cases ht : text ≠ ""
    · simp only [if_pos ht, h]
    · simp only [if_neg ht]
  · intro text h
    unfold loadFilterState loadFilterStateTry
    by_cases ht : text ≠ ""
    · simp only [if_pos ht, h, readFilters]
    · simp only [if_neg ht]
  · intro getItem h
    unfold loadFilterState
    rcases h with h | ⟨e, h⟩
    · rw [h]
    · rw [h]

/-- C14, evaluated: the stored texts `oops` (not JSON) and `null` both give
the defaults. -/
theorem loadFilterState_defaults_witness :
    loadFilterState sampleParse (.ok (some "oops")) = defaultFilters ∧
    loadFilterState sampleParse (.ok (some "null")) = defaultFilters :=
  ⟨(loadFilterState_defaults sampleParse).2.2.2.2.1 "oops" .parseError (by rfl),
    (loadFilterState_defaults sampleParse).2.2.2.2.2.1 "null" (by rfl)⟩

/-! ## Records with a missing `genres` property -/

theorem insertSorted_map {α β : Type} (f : α → β) (cmp : β → β → Option Int) (a : α)
    (l : List α) :
    insertSorted cmp (f a) (l.map f) =
      (insertSorted (fun x y => cmp (f x) (f y)) a l).map f := by
  induction l with
  | nil => rfl
  | cons b l ih =>
    simp only [List.map_cons, insertSorted]
    split
    · rfl
    · rw [ih]
      rfl

theorem arraySort_map {α β : Type} (f : α → β) (cmp : β → β → Option Int) (l : List α) :
    arraySort cmp (l.map f) = (arraySort (fun x y => cmp (f x) (f y)) l).map f := by
  induction l with
  | nil => rfl
  | cons a l ih =>
    simp only [List.map_cons, arraySort]
    rw [ih, insertSorted_map]

theorem searchStepRaw_map (env : Builtins) (search : String) (l : List Podcast) :
    searchStepRaw env search (l.map RawPodcast.ofPodcast) =
      (searchStep env search l).map RawPodcast.ofPodcast := by
  unfold searchStepRaw searchStep
  split
  · rw [List.filter_map]
    rfl
  · rfl

theorem filterGenresRaw_map (v : Option Int) (l : List Podcast) :
    filterGenresRaw v (l.map RawPodcast.ofPodcast) =
      .ok ((l.filter (fun p => arrayIncludes p.genres v)).map RawPodcast.ofPodcast) := by
  induction l with
  | nil => rfl
  | cons p l ih =>
    simp only [List.map_cons, filterGenresRaw, RawPodcast.ofPodcast]
    have ih' := ih
    simp only [RawPodcast.ofPodcast] at ih'
    rw [ih']
    simp only [List.filter_cons]
    split <;> rfl

theorem genreStepRaw_map (env : Builtins) (genre : String) (l : List Podcast) :
    genreStepRaw env genre (l.map RawPodcast.ofPodcast) =
      .ok ((genreStep env genre l).map RawPodcast.ofPodcast) := by
  unfold genreStepRaw genreStep
  split
  · exact filterGenresRaw_map _ l
  · rfl

theorem sortStepRaw_map (env : Builtins) (sortKey : String) (l : List Podcast) :
    sortStepRaw env sortKey (l.map RawPodcast.ofPodcast) =
      (sortStep env sortKey l).map RawPodcast.ofPodcast := by
  unfold sortStepRaw sortStep
  split
  · exact arraySort_map _ _ l
  · split
    · exact arraySort_map _ _ l
    · split
      · exact arraySort_map _ _ l
      · split
        · exact arraySort_map _ _ l
        · rfl

/-- On records that have every property of the typedef, `applyFiltersRaw`
returns what `applyFilters` returns. -/
theorem applyFiltersRaw_of_typed (env : Builtins) (shows : List Podcast)
    (search sortKey genre : String) :
    applyFiltersRaw env (shows.map RawPodcast.ofPodcast) search sortKey genre =
      .ok ((applyFilters env shows search sortKey genre).map RawPodcast.ofPodcast) := by
  unfold applyFiltersRaw applyFilters
  rw [searchStepRaw_map, genreStepRaw_map]
  simp only [sortStepRaw_map]

theorem filterGenresRaw_of_missing (v : Option Int) (l : List RawPodcast)
    (h : ∃ p ∈ l, p.genres = none) : filterGenresRaw v l = .error .typeError := by
  induction l with
  | nil =>
    obtain ⟨p, hp, _⟩ := h
    exact absurd hp (List.not_mem_nil p)
  | cons q l ih =>
    unfold filterGenresRaw
    cases hq : q.genres with
    | none => rfl
    | some g =>
      obtain ⟨p, hp, hnone⟩ := h
      rcases List.mem_cons.mp hp with rfl | hp
      · rw [hq] at hnone
        cases hnone
      · simp only [ih ⟨p, hp, hnone⟩]

/-- For a genre selector other than "all", `applyFilters` throws as soon as a
record that passes the search filter has no `genres` property. -/
theorem applyFiltersRaw_of_missing (env : Builtins) (shows : List RawPodcast)
    (search sortKey genre : String) (hg : genre ≠ "all")
    (h : ∃ p ∈ searchStepRaw env search shows, p.genres = none) :
    applyFiltersRaw env shows search sortKey genre = .error .typeError := by
  unfold applyFiltersRaw genreStepRaw
  rw [if_pos hg, filterGenresRaw_of_missing _ _ h]

/-- C15, on the code: with the genre selector "7", a show list that holds a
record without a `genres` property makes `applyFilters` throw a `TypeError`;
the record is not treated as having no genres. -/
theorem missing_genres_throws :
    applyFiltersRaw sampleBuiltins (storyShows.map RawPodcast.ofPodcast ++ [noGenresShow])
      "" "date-desc" "7" = .error .typeError ∧
    applyFiltersRaw sampleBuiltins (storyShows.map RawPodcast.ofPodcast)
      "" "date-desc" "7" = .ok [RawPodcast.ofPodcast (mkShow 1 "Sci-Fi Stories"
        "2022-11-03T07:00:00.000Z" [2, 7])] :=
  ⟨by rfl, by rfl⟩

/-! ## `fetchPodcasts` -/

theorem fetchPodcasts_of_not_ok {α : Type} (status : Nat) (body : BodyResult α)
    (hok : responseOk status = false) :
    fetchPodcasts (.response status body) =
      [.consoleError (toString status), .setError (toString status), .setLoading false] := by
  simp [fetchPodcasts, fetchPodcastsTry, hok]

theorem fetchPodcasts_of_unparsable {α : Type} (status : Nat) (message : String)
    (hok : responseOk status = true) :
    fetchPodcasts (.response status (.unparsable message) : FetchResult α) =
      [.consoleError message, .setError message, .setLoading false] := by
  simp [fetchPodcasts, fetchPodcastsTry, hok]

theorem fetchPodcasts_of_parsed {α : Type} (status : Nat) (data : α)
    (hok : responseOk status = true) :
    fetchPodcasts (.response status (.parsed data)) = [.setPodcast data, .setLoading false] := by
  simp [fetchPodcasts, fetchPodcastsTry, hok]

/-- C16: whatever the outcome of the request, `fetchPodcasts` makes a sequence
of calls that ends with `setLoading(false)`, its only call of `setLoading`; on
a network failure, a response outside 200-299 or an unparsable body it calls
`setError` with the error's message (the status code as text for the
response) and never `setPodcast`; on success it calls `setPodcast` with the
parsed data and never `setError`. -/
theorem fetchPodcasts_spec {α : Type} (r : FetchResult α) :
    (∃ calls : List (Effect α), fetchPodcasts r = calls ++ [.setLoading false] ∧
      ∀ b, Effect.setLoading b ∉ calls) ∧
    (∀ message, r = .networkFailure message →
      fetchPodcasts r = [.consoleError message, .setError message, .setLoading false]) ∧
    (∀ status body, r = .response status body → responseOk status = false →
      fetchPodcasts r =
        [.consoleError (toString status), .setError (toString status), .setLoading false]) ∧
    (∀ status message, r = .response status (.unparsable message) → responseOk status = true →
      fetchPodcasts r = [.consoleError message, .setError message, .setLoading false]) ∧
    (∀ status data, r = .response status (.parsed data) → responseOk status = true →
      fetchPodcasts r = [.setPodcast data, .setLoading false]) ∧
    ((∃ data, Effect.setPodcast data ∈ fetchPodcasts r) →
      ∀ message, Effect.setError message ∉ fetchPodcasts r) := by
  refine ⟨?_, ?_, ?_, ?_, ?_, ?_⟩
  · cases r with
    | networkFailure message =>
      exact ⟨[.consoleError message, .setError message], rfl, by simp⟩
    | response status body =>
      cases hok : responseOk status with
      | false =>
        exact ⟨[.consoleError (toString status), .setError (toString status)],
          fetchPodcasts_of_not_ok status body hok, by simp⟩
      | true =>
        cases body with
        | unparsable message =>
          exact ⟨[.consoleError message, .setError message],
            fetchPodcasts_of_unparsable status message hok, by simp⟩
        | parsed data =>
          exact ⟨[.setPodcast data], fetchPodcasts_of_parsed status data hok, by simp⟩
  · rintro message rfl
    rfl
  · rintro status body rfl hok
    exact fetchPodcasts_of_not_ok status body hok
  · rintro status message rfl hok
    exact fetchPodcasts_of_unparsable status message hok
  · rintro status data rfl hok
    exact fetchPodcasts_of_parsed status data hok
  · rintro ⟨data, hdata⟩ message hmessage
    cases r with
    | networkFailure m => simp [fetchPodcasts, fetchPodcastsTry] at hdata
    | response status body =>
      cases hok : responseOk status with
      | false =>
        rw [fetchPodcasts_of_not_ok status body hok] at hdata
        simp at hdata
      | true =>
        cases body with
        | unparsable m =>
          rw [fetchPodcasts_of_unparsable status m hok] at hdata
          simp at hdata
        | parsed d =>
          rw [fetchPodcasts_of_parsed status d hok] at hmessage
          simp at hmessage

/-- C16, evaluated: a 404 response gives the error message "404", a 200
response with a parsed body hands the data to `setPodcast`. -/
theorem fetchPodcasts_spec_witness :
    fetchPodcasts (FetchResult.response 404 (BodyResult.parsed storyShows)) =
      [.consoleError "404", .setError "404", .setLoading false] ∧
    fetchPodcasts (FetchResult.response 200 (BodyResult.parsed storyShows)) =
      [.setPodcast storyShows, .setLoading false] ∧
    fetchPodcasts (FetchResult.networkFailure "Failed to fetch" : FetchResult (List Podcast)) =
      [.consoleError "Failed to fetch", .setError "Failed to fetch", .setLoading false] :=
  ⟨((fetchPodcasts_spec (FetchResult.response 404 (BodyResult.parsed storyShows))).2.2.1
      404 _ rfl (by decide)).trans (by decide),
    (fetchPodcasts_spec (FetchResult.response 200 (BodyResult.parsed storyShows))).2.2.2.2.1
      200 _ rfl (by decide),
    (fetchPodcasts_spec (FetchResult.networkFailure "Failed to fetch")).2.1 _ rfl⟩

/-! ## Counts -/

theorem length_applyFilters_le (env : Builtins) (shows : List Podcast)
    (search sortKey genre : String) :
    (applyFilters env shows search sortKey genre).length ≤ shows.length := by
  unfold applyFilters
  rw [(perm_sortStep env sortKey _).length_eq]
  exact ((genreStep_sublist env genre _).trans (searchStep_sublist env search shows)).length_le

/-- C17: the filtered count exposed as `allPodcastsCount` never exceeds the
number of shows in the source list. -/
theorem filtered_count_le_total (env : Builtins) (shows : List Podcast) (st : ProviderState) :
    (PodcastProvider env shows st).allPodcastsCount ≤ shows.length :=
  length_applyFilters_le env shows st.search st.sortKey st.genre

theorem perm_applyFilters_default (env : Builtins) (shows : List Podcast)
    (search sortKey genre : String) :
    (applyFilters env shows search sortKey genre).Perm
      (applyFilters env shows search "default" genre) := by
  unfold applyFilters
  exact (perm_sortStep env sortKey _).trans (perm_sortStep env "default" _).symm

/-- C20: the sort step only reorders: for every sort key the result of
`applyFilters` is a permutation of the result for the key "default", so
`allPodcastsCount` and `totalPages` do not depend on the sort key. -/
theorem sort_only_reorders (env : Builtins) (shows : List Podcast) (st : ProviderState)
    (sortKey : String) :
    (applyFilters env shows st.search sortKey st.genre).Perm
      (applyFilters env shows st.search "default" st.genre) ∧
    (PodcastProvider env shows { st with sortKey := sortKey }).allPodcastsCount =
      (PodcastProvider env shows { st with sortKey := "default" }).allPodcastsCount ∧
    (PodcastProvider env shows { st with sortKey := sortKey }).totalPages =
      (PodcastProvider env shows { st with sortKey := "default" }).totalPages := by
  have hperm := perm_applyFilters_default env shows st.search sortKey st.genre
  have hlen := hperm.length_eq
  refine ⟨hperm, hlen, ?_⟩
  show totalPages (applyFilters env shows st.search sortKey st.genre).length st.pageSize =
    totalPages (applyFilters env shows st.search "default" st.genre).length st.pageSize
  rw [hlen]

/-! ## `formatDuration` -/

set_option maxRecDepth 100000 in
theorem padStart_two : ∀ x : Nat, x < 60 → padStart (toString x) 2 "0" = twoDigits x := by
  decide

theorem shiftUp_spec (a b : Nat) :
    ∀ fuel t, 2 ^ 52 * b ≤ a * 2 ^ (t + fuel) → 2 ^ 52 * b ≤ a * 2 ^ (shiftUp a b fuel t) := by
  intro fuel
  induction fuel with
  | zero =>
    intro t h
    simpa [shiftUp] using h
  | succ fuel ih =>
    intro t h
    unfold shiftUp
    split
    · assumption
    · apply ih
      have : t + 1 + fuel = t + (fuel + 1) := by omega
      rw [this]
      exact h

/-- The search of `shiftUp` ends within its fuel. -/
theorem shiftUp_bound (a b : Nat) (ha : 0 < a) :
    2 ^ 52 * b ≤ a * 2 ^ (shiftUp a b (53 + b) 0) := by
  apply shiftUp_spec
  have h1 : b < 2 ^ b := Nat.lt_two_pow b
  have h2 : (2 : Nat) ^ (0 + (53 + b)) = 2 ^ 53 * 2 ^ b := by
    rw [Nat.zero_add, Nat.pow_add]
  rw [h2]
  calc 2 ^ 52 * b ≤ 2 ^ 53 * 2 ^ b := Nat.mul_le_mul (by norm_num) (Nat.le_of_lt h1)
    _ = 1 * (2 ^ 53 * 2 ^ b) := (Nat.one_mul _).symm
    _ ≤ a * (2 ^ 53 * 2 ^ b) := Nat.mul_le_mul_right _ ha

theorem shiftDown_spec (a b : Nat) :
    ∀ fuel s, a < 2 ^ 53 * b * 2 ^ (s + fuel) → a < 2 ^ 53 * b * 2 ^ (shiftDown a b fuel s) := by
  intro fuel
  induction fuel with
  | zero =>
    intro s h
    simpa [shiftDown] using h
  | succ fuel ih =>
    intro s h
    unfold shiftDown
    split
    · assumption
    · apply ih
      have : s + 1 + fuel = s + (fuel + 1) := by omega
      rw [this]
      exact h

/-- The search of `shiftDown` ends within its fuel. -/
theorem shiftDown_bound (a b : Nat) (hb : 0 < b) :
    a < 2 ^ 53 * b * 2 ^ (shiftDown a b a 1) := by
  apply shiftDown_spec
  have h1 : a < 2 ^ a := Nat.lt_two_pow a
  have h2 : (2 : Nat) ^ a ≤ 2 ^ (1 + a) := Nat.pow_le_pow_right (by norm_num) (by omega)
  have h3 : 0 < 2 ^ 53 * b := Nat.mul_pos (by norm_num) hb
  calc a < 2 ^ (1 + a) := lt_of_lt_of_le h1 h2
    _ = 1 * 2 ^ (1 + a) := (Nat.one_mul _).symm
    _ ≤ 2 ^ 53 * b * 2 ^ (1 + a) := Nat.mul_le_mul_right _ h3

theorem roundHalfEven_cases (n d : Nat) :
    roundHalfEven n d = n / d ∨ (roundHalfEven n d = n / d + 1 ∧ d ≤ 2 * (n % d)) := by
  unfold roundHalfEven
  simp only
  split_ifs <;> first | exact Or.inl rfl | exact Or.inr ⟨rfl, by omega⟩

/-- Below `2^53` the rounding of the quotient to a double does not change its
floor: `Math.floor(a / b)` is the integer quotient. -/
theorem mathFloorDiv_eq (a b : Nat) (hb : 0 < b) (ha : a < 2 ^ 53) :
    mathFloorDiv a b = a / b := by
  unfold mathFloorDiv
  by_cases h0 : a = 0
  · simp [h0]
  rw [if_neg h0]
  have hbig : ¬ (2 ^ 53 * b ≤ a) := by
    have : 2 ^ 53 * 1 ≤ 2 ^ 53 * b := Nat.mul_le_mul_left _ hb
    omega
  rw [if_neg hbig]
  simp only
  have hT := shiftUp_bound a b (Nat.pos_of_ne_zero h0)
  generalize 2 ^ (shiftUp a b (53 + b) 0) = T at hT ⊢
  have hTpos : 0 < T := by
    rcases Nat.eq_zero_or_pos T with h | h
    · rw [h] at hT
      have : 0 < 2 ^ 52 * b := Nat.mul_pos (by norm_num) hb
      omega
    · exact h
  have hk := Nat.div_add_mod a b
  have hρ := Nat.mod_lt a hb
  have hq := Nat.div_add_mod (a * T) b
  have hr := Nat.mod_lt (a * T) hb
  have hlow : a / b * T ≤ a * T / b := by
    rw [Nat.le_div_iff_mul_le hb]
    have : a / b * b ≤ a := Nat.div_mul_le_self a b
    calc a / b * T * b = a / b * b * T := by ring
      _ ≤ a * T := Nat.mul_le_mul_right T this
  have hup : a * T / b < (a / b + 1) * T := by
    rw [Nat.div_lt_iff_lt_mul hb]
    have : a < (a / b + 1) * b := by
      have := Nat.lt_succ_self (a / b)
      nlinarith
    calc a * T < (a / b + 1) * b * T := Nat.mul_lt_mul_of_pos_right this hTpos
      _ = (a / b + 1) * T * b := by ring
  apply Nat.div_eq_of_lt_le
  · rcases roundHalfEven_cases (a * T) b with h | ⟨h, _⟩
    · rw [h]
      exact hlow
    · rw [h]
      omega
  · rcases roundHalfEven_cases (a * T) b with h | ⟨h, h2⟩
    · rw [h]
      exact hup
    · rw [h]
      by_contra hcon
      have heq : a * T / b + 1 = (a / b + 1) * T := by
        have : (a / b + 1) * T = (a / b).succ * T := rfl
        omega
      have e1 : b * (a * T / b + 1) = b * ((a / b + 1) * T) := by rw [heq]
      have hlt : 2 ^ 52 * b < 2 ^ 53 * T := by
        calc 2 ^ 52 * b ≤ a * T := hT
          _ < 2 ^ 53 * T := Nat.mul_lt_mul_of_pos_right ha hTpos
      nlinarith

theorem numberToString_small (hostToString : Nat → String) (n : Nat) (h : n < 2 ^ 53) :
    numberToString hostToString n = toString n := by
  unfold numberToString
  rw [if_pos h]

theorem formatDuration_eq (hostToString : Nat → String) (ms : Nat) (hpos : 0 < ms)
    (hbound : ms < 2 ^ 53) :
    formatDuration hostToString (some ms) =
      if ms / 1000 / 3600 > 0 then
        toString (ms / 1000 / 3600) ++ ":" ++ padStart (toString (ms / 1000 % 3600 / 60)) 2 "0" ++
          ":" ++ padStart (toString (ms / 1000 % 60)) 2 "0"
      else
        toString (ms / 1000 % 3600 / 60) ++ ":" ++ padStart (toString (ms / 1000 % 60)) 2 "0" := by
  have h1 : mathFloorDiv ms 1000 = ms / 1000 := mathFloorDiv_eq ms 1000 (by decide) hbound
  have h2 : mathFloorDiv (ms / 1000) 3600 = ms / 1000 / 3600 :=
    mathFloorDiv_eq _ 3600 (by decide) (by omega)
  have h3 : mathFloorDiv (ms / 1000 % 3600) 60 = ms / 1000 % 3600 / 60 :=
    mathFloorDiv_eq _ 60 (by decide) (by omega)
  have n1 : numberToString hostToString (ms / 1000 / 3600) = toString (ms / 1000 / 3600) :=
    numberToString_small _ _ (by omega)
  have n2 : numberToString hostToString (ms / 1000 % 3600 / 60) =
      toString (ms / 1000 % 3600 / 60) := numberToString_small _ _ (by omega)
  have n3 : numberToString hostToString (ms / 1000 % 60) = toString (ms / 1000 % 60) :=
    numberToString_small _ _ (by omega)
  unfold formatDuration
  simp only [if_neg (Nat.pos_iff_ne_zero.mp hpos), h1, h2, h3, n1, n2, n3]

theorem formatDuration_hours (hostToString : Nat → String) (ms : Nat) (hpos : 0 < ms)
    (hbound : ms < 2 ^ 53) (h : 0 < ms / 1000 / 3600) :
    formatDuration hostToString (some ms) =
      toString (ms / 1000 / 3600) ++ ":" ++ twoDigits (ms / 1000 % 3600 / 60) ++ ":" ++
        twoDigits (ms / 1000 % 60) := by
  have hm : ms / 1000 % 3600 / 60 < 60 := by omega
  have hs : ms / 1000 % 60 < 60 := by omega
  rw [formatDuration_eq hostToString ms hpos hbound, if_pos h, padStart_two _ hm,
    padStart_two _ hs]

theorem formatDuration_minutes (hostToString : Nat → String) (ms : Nat) (hpos : 0 < ms)
    (hbound : ms < 2 ^ 53) (h : ms / 1000 / 3600 = 0) :
    formatDuration hostToString (some ms) =
      toString (ms / 1000 % 3600 / 60) ++ ":" ++ twoDigits (ms / 1000 % 60) := by
  have hs : ms / 1000 % 60 < 60 := by omega
  have h' : ¬ (ms / 1000 / 3600 > 0) := by omega
  rw [formatDuration_eq hostToString ms hpos hbound, if_neg h', padStart_two _ hs]

/-- C18, as stated, fails for a long duration: at 144115188075856992 ms, an
integer-valued double, the quotient by 1000 rounds up to a whole number of
seconds, so the code renders `40031996687:44:17`, whereas
`s = floor(ms / 1000) mod 60` is 16. -/
theorem long_duration_rounds_up :
    formatDuration decimalToString (some 144115188075856992) = "40031996687:44:17" ∧
    144115188075856992 / 1000 / 3600 = 40031996687 ∧
    144115188075856992 / 1000 % 3600 / 60 = 44 ∧
    144115188075856992 / 1000 % 60 = 16 ∧
    formatDuration decimalToString (some 144115188075856992) ≠
      toString (144115188075856992 / 1000 / 3600) ++ ":" ++
        twoDigits (144115188075856992 / 1000 % 3600 / 60) ++ ":" ++
        twoDigits (144115188075856992 / 1000 % 60) := by
  decide

/-- C18, amended: for a positive integer duration `ms` below `2^53`, with
`t = floor(ms / 1000)`, `h = floor(t / 3600)`, `m = floor((t mod 3600) / 60)`
and `s = t mod 60`, the code computes exactly these numbers, one has
`h*3600 + m*60 + s = t`, `m < 60` and `s < 60`, and `formatDuration` returns
`h:mm:ss` when `h > 0` and `m:ss` otherwise, minutes and seconds being padded
with a zero to two digits; a zero or missing duration gives "0:00". -/
theorem formatDuration_spec (hostToString : Nat → String) (ms : Nat) (hpos : 0 < ms)
    (hbound : ms < 2 ^ 53) :
    mathFloorDiv ms 1000 = ms / 1000 ∧
    mathFloorDiv (mathFloorDiv ms 1000) 3600 = ms / 1000 / 3600 ∧
    mathFloorDiv (mathFloorDiv ms 1000 % 3600) 60 = ms / 1000 % 3600 / 60 ∧
    ms / 1000 = ⌊(ms : ℚ) / 1000⌋₊ ∧
    (ms / 1000 / 3600) * 3600 + (ms / 1000 % 3600 / 60) * 60 + ms / 1000 % 60 = ms / 1000 ∧
    ms / 1000 % 3600 / 60 < 60 ∧
    ms / 1000 % 60 < 60 ∧
    (0 < ms / 1000 / 3600 →
      formatDuration hostToString (some ms) =
        toString (ms / 1000 / 3600) ++ ":" ++ twoDigits (ms / 1000 % 3600 / 60) ++ ":" ++
          twoDigits (ms / 1000 % 60)) ∧
    (ms / 1000 / 3600 = 0 →
      formatDuration hostToString (some ms) =
        toString (ms / 1000 % 3600 / 60) ++ ":" ++ twoDigits (ms / 1000 % 60)) ∧
    formatDuration hostToString (some 0) = "0:00" ∧
    formatDuration hostToString none = "0:00" := by
  have h1 : mathFloorDiv ms 1000 = ms / 1000 := mathFloorDiv_eq ms 1000 (by decide) hbound
  have h2 : mathFloorDiv (ms / 1000) 3600 = ms / 1000 / 3600 :=
    mathFloorDiv_eq _ 3600 (by decide) (by omega)
  have h3 : mathFloorDiv (ms / 1000 % 3600) 60 = ms / 1000 % 3600 / 60 :=
    mathFloorDiv_eq _ 60 (by decide) (by omega)
  refine ⟨h1, by rw [h1, h2], by rw [h1, h3], ?_, by omega, by omega, by omega,
    formatDuration_hours hostToString ms hpos hbound,
    formatDuration_minutes hostToString ms hpos hbound, rfl, rfl⟩
  have := @Nat.floor_div_eq_div ℚ _ _ ms 1000
  simpa using this.symm

/-- C18, amended, evaluated: 3 725 000 ms is "1:02:05", 65 000 ms is "1:05"
and 999 ms is "0:00". -/
theorem formatDuration_spec_witness :
    formatDuration decimalToString (some 3725000) = "1:02:05" ∧
    formatDuration decimalToString (some 65000) = "1:05" ∧
    formatDuration decimalToString (some 999) = "0:00" :=
  ⟨((formatDuration_spec decimalToString 3725000 (by decide) (by decide)).2.2.2.2.2.2.2.1
      (by decide)).trans (by decide),
    ((formatDuration_spec decimalToString 65000 (by decide) (by decide)).2.2.2.2.2.2.2.2.1
      (by decide)).trans (by decide),
    ((formatDuration_spec decimalToString 999 (by decide) (by decide)).2.2.2.2.2.2.2.2.1
      (by decide)).trans (by decide)⟩

/-! ## The stored page under user events -/

theorem one_le_currentPage (search : String) (page : Int) (total : Nat) (h : 1 ≤ page) :
    1 ≤ currentPage search page total := by
  unfold currentPage
  split
  · exact le_rfl
  · exact h

theorem one_le_provider_page (env : Builtins) (shows : List Podcast) (st : ProviderState)
    (h : 1 ≤ st.page) : 1 ≤ (PodcastProvider env shows st).page :=
  one_le_currentPage _ _ _ h

theorem step_page (env : Builtins) (a : App) (e : Event) (h : 1 ≤ a.state.page) :
    1 ≤ (step env a e).state.page := by
  have hv := one_le_provider_page env a.shows a.state h
  cases e with
  | prevClick =>
    show 1 ≤ (prevClick (PodcastProvider env a.shows a.state) a.state).page
    unfold prevClick
    split
    · exact h
    · split
      · exact h
      · show 1 ≤ (PodcastProvider env a.shows a.state).page - 1
        omega
  | nextClick =>
    show 1 ≤ (nextClick (PodcastProvider env a.shows a.state) a.state).page
    unfold nextClick
    split
    · exact h
    · split
      · exact h
      · show 1 ≤ (PodcastProvider env a.shows a.state).page + 1
        omega
  | logoClick => exact le_rfl
  | setSearch search => exact h
  | setGenre genre => exact h
  | setSortKey sortKey => exact h
  | setPageSize pageSize => exact h
  | setShows shows => exact h

theorem step_pageSize (env : Builtins) (a : App) (e : Event) (h : 0 < a.state.pageSize)
    (he : e.keepsPageSizePositive = true) : 0 < (step env a e).state.pageSize := by
  cases e with
  | prevClick =>
    show 0 < (prevClick (PodcastProvider env a.shows a.state) a.state).pageSize
    unfold prevClick
    split
    · exact h
    · split <;> exact h
  | nextClick =>
    show 0 < (nextClick (PodcastProvider env a.shows a.state) a.state).pageSize
    unfold nextClick
    split
    · exact h
    · split <;> exact h
  | logoClick => exact h
  | setSearch search => exact h
  | setGenre genre => exact h
  | setSortKey sortKey => exact h
  | setPageSize pageSize => exact of_decide_eq_true he
  | setShows shows => exact h

theorem run_invariant (env : Builtins) (events : List Event) :
    ∀ a : App, 1 ≤ a.state.page → 0 < a.state.pageSize →
      (∀ e ∈ events, e.keepsPageSizePositive = true) →
      1 ≤ (run env a events).state.page ∧ 0 < (run env a events).state.pageSize := by
  induction events with
  | nil =>
    intro a hp hs _
    exact ⟨hp, hs⟩
  | cons e events ih =>
    intro a hp hs hev
    exact ih (step env a e) (step_page env a e hp)
      (step_pageSize env a e hs (hev e (List.mem_cons_self e events)))
      (fun e' he' => hev e' (List.mem_cons_of_mem e he'))

/-- C19: starting from the stored page 1, after any sequence of Prev and Next
clicks (each a no-op when its button is disabled or not rendered), logo
clicks and changes of search text, genre, sort key, positive page size or
show list, the stored page is at least 1 and the effective page lies in
`[1, totalPages]`. -/
theorem stored_page_stays_positive (env : Builtins) (a : App) (events : List Event)
    (hpage : a.state.page = 1) (hsize : 0 < a.state.pageSize)
    (hevents : ∀ e ∈ events, e.keepsPageSizePositive = true) :
    1 ≤ (run env a events).state.page ∧
    0 < (run env a events).state.pageSize ∧
    1 ≤ (PodcastProvider env (run env a events).shows (run env a events).state).page ∧
    (PodcastProvider env (run env a events).shows (run env a events).state).page ≤
      ((PodcastProvider env (run env a events).shows (run env a events).state).totalPages : Int) := by
  have h := run_invariant env events a (by omega) hsize hevents
  have hr := currentPage_in_range (run env a events).state.search (run env a events).state.page
    (totalPages (applyFilters env (run env a events).shows (run env a events).state.search
      (run env a events).state.sortKey (run env a events).state.genre).length
      (run env a events).state.pageSize) (one_le_totalPages _ _) (Or.inl h.1)
  exact ⟨h.1, h.2, hr.1, hr.2⟩

/-- C19, evaluated on a session over the forty-five shows that starts from
the default state. -/
theorem stored_page_stays_positive_witness :
    1 ≤ (run sampleBuiltins { shows := genreShows, state := defaultState }
      sampleEvents).state.page ∧
    1 ≤ (PodcastProvider sampleBuiltins
      (run sampleBuiltins { shows := genreShows, state := defaultState } sampleEvents).shows
      (run sampleBuiltins { shows := genreShows, state := defaultState }
        sampleEvents).state).page :=
  have h := stored_page_stays_positive sampleBuiltins
    { shows := genreShows, state := defaultState } sampleEvents rfl (by decide) (by decide)
  ⟨h.1, h.2.2.1⟩

end PodcastApp
